import Mathlib

/-!
Shallow embedding of the `react-native-png` PNG codec.

The orchestrator (`RnPng`), the `IDAT` pixel-data chunk and the two `bKGD`
background-chunk implementations are translated directly from the JavaScript
source.  Collaborators that the source imports but whose files are not part of
the provided sources (the constants table, the `PLTE` palette chunk, the `tRNS`
transparency chunk, the `IHDR` header chunk, the byte-packing and scanline
filter utilities, and a few `IDAT` accessor methods) are modelled from the
specification; each such definition carries a doc comment starting with
`Modelled from the spec:`.

JavaScript `Uint8ClampedArray` buffers are modelled as `List Nat` with writes
clamped to 255.  Errors thrown by the source are modelled with `Except`;
out-of-range raster reads (which in JavaScript surface as `undefined` values
and subsequent crashes) are surfaced as `PngError.indexOutOfRange`.
-/

/-- Error taxonomy of the library (spec section 7). -/
inductive PngError where
  | invalidMetadata
  | notAPng
  | invalidCodec
  | noPalette
  | noTransparency
  | noBackground
  | indexOutOfRange
  | paletteFull
  | insufficientSamples
  | sampleCountMismatch
  | unsupportedOperation
deriving DecidableEq, Repr

/-- Modelled from the spec: the five canonical PNG color-type codes
(`util/constants` is not among the provided sources). -/
def ColorTypes.GRAYSCALE : Nat := 0

/-- Modelled from the spec: truecolor color-type code. -/
def ColorTypes.TRUECOLOR : Nat := 2

/-- Modelled from the spec: indexed color-type code. -/
def ColorTypes.INDEXED : Nat := 3

/-- Modelled from the spec: grayscale-with-alpha color-type code. -/
def ColorTypes.GRAYSCALE_AND_ALPHA : Nat := 4

/-- Modelled from the spec: truecolor-with-alpha color-type code. -/
def ColorTypes.TRUECOLOR_AND_ALPHA : Nat := 6

/-- Modelled from the spec: `isIndexed` from `util/png-pixels`. -/
def isIndexed (colorType : Nat) : Bool := colorType == ColorTypes.INDEXED

/-- Modelled from the spec: `isGrayscale` from `util/png-pixels`. -/
def isGrayscale (colorType : Nat) : Bool := colorType == ColorTypes.GRAYSCALE

/-- Modelled from the spec: `isTruecolor` from `util/png-pixels`. -/
def isTruecolor (colorType : Nat) : Bool := colorType == ColorTypes.TRUECOLOR

/-- Modelled from the spec: `hasAlphaSample` from `util/png-pixels` (true for
grayscale+alpha and truecolor+alpha). -/
def hasAlphaSample (colorType : Nat) : Bool :=
  colorType == ColorTypes.GRAYSCALE_AND_ALPHA || colorType == ColorTypes.TRUECOLOR_AND_ALPHA

/-- Modelled from the spec: `determinePixelColorSize` from `util/png-pixels`:
3 color samples for the truecolor family, 1 otherwise. -/
def determinePixelColorSize (colorType : Nat) : Nat :=
  if colorType == ColorTypes.TRUECOLOR || colorType == ColorTypes.TRUECOLOR_AND_ALPHA then 3 else 1

/-- Modelled from the spec: `determineFullPixelSize` from `util/png-pixels`:
color sample count plus one if an alpha sample is present (spec glossary). -/
def determineFullPixelSize (colorType : Nat) : Nat :=
  determinePixelColorSize colorType + (if hasAlphaSample colorType then 1 else 0)

/-- Modelled from the spec: `computeNumberOfPixels` from `util/png-pixels`. -/
def computeNumberOfPixels (width height : Nat) : Nat := width * height

/-- Modelled from the spec: `computeMaxNumberOfColors` from `util/png-pixels`
(capacity = 2^bitDepth, spec section 3). -/
def computeMaxNumberOfColors (depth : Nat) : Nat := 2 ^ depth

/-- `_determineNumberOfSamples` from `src/chunks/bkgd.js`: 1 sample for
indexed/grayscale/grayscale+alpha, 3 for the truecolor family. -/
def determineBackgroundSamplesPerEntry (colorType : Nat) : Nat :=
  if colorType == ColorTypes.INDEXED || colorType == ColorTypes.GRAYSCALE
      || colorType == ColorTypes.GRAYSCALE_AND_ALPHA then 1 else 3

/-- Uint8ClampedArray write clamping (values above 255 clamp to 255). -/
def clamp8 (v : Nat) : Nat := min v 255

/-- Write a list of sample values into a buffer starting at `i`, clamping each
byte; writes past the end of the buffer are dropped (typed-array semantics). -/
def writeBytes (buf : List Nat) (i : Nat) (vs : List Nat) : List Nat :=
  match vs with
  | [] => buf
  | v :: rest => writeBytes (buf.set i (clamp8 v)) (i + 1) rest

/-- Validated metadata of an image document (spec section 3). -/
structure MetaData where
  width : Nat
  height : Nat
  depth : Nat
  colorType : Nat
  compression : Nat
  filter : Nat
  interlace : Nat
deriving DecidableEq, Repr

/-- State of the `IDAT` pixel-data chunk: layout parameters plus the decoded
sample buffer (one byte per sample). -/
structure IDATState where
  width : Nat
  height : Nat
  depth : Nat
  colorType : Nat
  numberOfPixels : Nat
  pixelData : List Nat
deriving DecidableEq, Repr

/-- `IDAT.calculatePixelAndFilterSize`: one filter byte prefixed per scanline. -/
def IDATState.calculatePixelAndFilterSize (s : IDATState) : Nat :=
  (s.width * determineFullPixelSize s.colorType + 1) * s.height

/-- `IDAT.calculatePayloadSize`: 2 (stream header) + filtered pixel size
+ 5 bytes per 0xFFFF block + 4 (checksum), exactly as written in the source:
`2 + P + 5 * Math.floor((0xfffe + P) / 0xffff) + 4`. -/
def IDATState.calculatePayloadSize (s : IDATState) : Nat :=
  2 + s.calculatePixelAndFilterSize
    + 5 * ((0xfffe + s.calculatePixelAndFilterSize) / 0xffff)
    + 4

/-- `IDAT.calculateChunkLength`: framing overhead (4-byte length + 4-byte type
+ 4-byte CRC) plus the payload size. -/
def IDATState.calculateChunkLength (s : IDATState) : Nat :=
  12 + s.calculatePayloadSize

/-- `IDAT.applyLayoutInformation`. -/
def IDATState.applyLayoutInformation (s : IDATState) (m : MetaData) : IDATState :=
  { s with
    width := m.width, height := m.height, depth := m.depth,
    colorType := m.colorType,
    numberOfPixels := computeNumberOfPixels m.width m.height }

/-- `IDAT.translateXyToIndex`. -/
def IDATState.translateXyToIndex (s : IDATState) (x y : Nat) : Nat :=
  let fullPixelSize := determineFullPixelSize s.colorType
  y * (s.width * fullPixelSize) + x * fullPixelSize

/-- Modelled from the spec: `IDAT.getPixelOf` reads a single byte or a
fixed-length tuple at the given raster offset (the method is referenced by the
orchestrator but absent from the provided `IDAT` source).  JavaScript slice
semantics: an out-of-range read yields a shorter (possibly empty) list. -/
def IDATState.getPixelOf (s : IDATState) (index : Nat) : List Nat :=
  (s.pixelData.drop index).take (determineFullPixelSize s.colorType)

/-- Modelled from the spec: `IDAT.setPixelOf` with a tuple argument writes the
tuple's samples at consecutive raster offsets. -/
def IDATState.setPixelOfList (s : IDATState) (index : Nat) (vals : List Nat) : IDATState :=
  { s with pixelData := writeBytes s.pixelData index vals }

/-- Modelled from the spec: `IDAT.setPixelOf` with a single-value argument
(used for palette indices) writes one clamped byte. -/
def IDATState.setPixelOfValue (s : IDATState) (index : Nat) (v : Nat) : IDATState :=
  { s with pixelData := s.pixelData.set index (clamp8 v) }

/-- Modelled from the spec: `IDAT.getValueAt` raw single-sample read; an
out-of-range read yields `none` (JavaScript `undefined`). -/
def IDATState.getValueAt (s : IDATState) (index : Nat) : Option Nat :=
  s.pixelData.get? index

/-- Fresh `IDAT` chunk state as built by the `IDAT` constructor: the sample
buffer is allocated with `calculatePixelAndFilterSize()` entries, zero-filled. -/
def mkIDAT (m : MetaData) : IDATState :=
  let s0 : IDATState :=
    { width := m.width, height := m.height, depth := m.depth,
      colorType := m.colorType,
      numberOfPixels := computeNumberOfPixels m.width m.height,
      pixelData := [] }
  { s0 with pixelData := List.replicate s0.calculatePixelAndFilterSize 0 }

/-- Modelled from the spec: state of the `PLTE` palette chunk — an ordered
sequence of RGB triples with capacity `2^depth` (the `PLTE` source file is not
among the provided sources). -/
structure PLTEState where
  maxNumberOfColors : Nat
  palette : List (List Nat)
deriving DecidableEq, Repr

/-- Modelled from the spec: fresh empty palette chunk. -/
def mkPLTE (maxNumberOfColors : Nat) : PLTEState :=
  { maxNumberOfColors := maxNumberOfColors, palette := [] }

/-- Modelled from the spec: `PLTE.isColorInPalette` — linear exact-RGB search. -/
def PLTEState.isColorInPalette (p : PLTEState) (color : List Nat) : Bool :=
  decide (color ∈ p.palette)

/-- Modelled from the spec: `PLTE.getPaletteIndex` — index of the first exact
match (callers guard with `isColorInPalette`). -/
def PLTEState.getPaletteIndex (p : PLTEState) (color : List Nat) : Nat :=
  p.palette.findIdx (fun c => c == color)

/-- Modelled from the spec: `PLTE.addColor` appends the color and returns its
new index; fails with `PaletteFull` when the palette would exceed capacity. -/
def PLTEState.addColor (p : PLTEState) (color : List Nat) :
    Except PngError (Nat × PLTEState) :=
  if p.maxNumberOfColors < p.palette.length + 1 then
    .error .paletteFull
  else
    .ok (p.palette.length, { p with palette := p.palette ++ [color] })

/-- Modelled from the spec: `PLTE.getColorOf` fails with `IndexOutOfRange`
when the index is at or past the palette length. -/
def PLTEState.getColorOf (p : PLTEState) (index : Nat) : Except PngError (List Nat) :=
  match p.palette.get? index with
  | none => .error .indexOutOfRange
  | some c => .ok c

/-- Modelled from the spec: `PLTE.setColorOf` overwrites an entry in place. -/
def PLTEState.setColorOf (p : PLTEState) (index : Nat) (color : List Nat) : PLTEState :=
  { p with palette := p.palette.set index color }

/-- Modelled from the spec: state of the `tRNS` transparency chunk — either an
index-keyed alpha table (indexed images; trailing unset entries implicitly
opaque) or a list of literal color keys (the `tRNS` source file is not among
the provided sources). -/
structure TRNSState where
  colorType : Nat
  alphas : List Nat
  colorKeys : List (List Nat)
deriving DecidableEq, Repr

/-- Modelled from the spec: fresh transparency chunk. -/
def mkTRNS (colorType : Nat) : TRNSState :=
  { colorType := colorType, alphas := [], colorKeys := [] }

/-- Modelled from the spec: `tRNS.setTransparency` with a palette index grows
or overwrites the index-to-alpha mapping; indices skipped while growing are
implicitly opaque (255). -/
def TRNSState.setTransparencyOf (t : TRNSState) (alpha index : Nat) : TRNSState :=
  if index < t.alphas.length then
    { t with alphas := t.alphas.set index (clamp8 alpha) }
  else
    { t with alphas := t.alphas ++ List.replicate (index - t.alphas.length) 255 ++ [clamp8 alpha] }

/-- Modelled from the spec: `tRNS.setTransparency` without an index records a
literal color key meaning "fully transparent wherever this color occurs". -/
def TRNSState.setTransparencyKey (t : TRNSState) (color : List Nat) : TRNSState :=
  if color ∈ t.colorKeys then t else { t with colorKeys := t.colorKeys ++ [color] }

/-- Modelled from the spec: `tRNS.getValueOf` returns the stored alpha for a
palette index, or `none` (JavaScript `undefined`) when unset. -/
def TRNSState.getValueOf (t : TRNSState) (index : Nat) : Option Nat :=
  t.alphas.get? index

/-- Modelled from the spec: `tRNS.isTransparencySet` tests color-key
membership. -/
def TRNSState.isTransparencySet (t : TRNSState) (color : List Nat) : Bool :=
  decide (color ∈ t.colorKeys)

/-- Modelled from the spec: `tRNS.removeTransparency` deletes a color-key
entry. -/
def TRNSState.removeTransparencyKey (t : TRNSState) (color : List Nat) : TRNSState :=
  { t with colorKeys := t.colorKeys.erase color }

/-- Modelled from the spec: `tRNS.removeTransparencyOf` deletes the alpha
entry of a palette index (deleted entries read as unset, hence opaque). -/
def TRNSState.removeTransparencyOf (t : TRNSState) (index : Nat) : TRNSState :=
  { t with alphas := t.alphas.set index 255 }

/-- State of a `bKGD` background chunk (`src/chunks/bkgd.js`). -/
structure BKGDState where
  colorType : Nat
  backgroundColor : List Nat
deriving DecidableEq, Repr

/-- Fresh background chunk: sample buffer sized by color type, zero-filled. -/
def mkBKGD (colorType : Nat) : BKGDState :=
  { colorType := colorType,
    backgroundColor := List.replicate (determineBackgroundSamplesPerEntry colorType) 0 }

/-- `bKGD.setBackgroundColor`: fails with `SampleCountMismatch` when the
supplied tuple's arity disagrees with the color type. -/
def BKGDState.setBackgroundColor (b : BKGDState) (color : List Nat) :
    Except PngError BKGDState :=
  if color.length ≠ determineBackgroundSamplesPerEntry b.colorType then
    .error .sampleCountMismatch
  else
    .ok { b with backgroundColor := color.map clamp8 }

/-- `bKGD.calculatePayloadSize`. -/
def BKGDState.calculatePayloadSize (b : BKGDState) : Nat :=
  if isIndexed b.colorType then 1 else determineBackgroundSamplesPerEntry b.colorType * 2

/-- `bKGD.calculateChunkLength`. -/
def BKGDState.calculateChunkLength (b : BKGDState) : Nat :=
  12 + b.calculatePayloadSize

/-- Modelled from the spec: `readUint8At` from `util/typed-array`; a read past
the end yields 0 (the JavaScript `undefined` is clamped to 0 when stored). -/
def readUint8At (buf : List Nat) (offset : Nat) : Nat :=
  buf.getD offset 0

/-- Modelled from the spec: `readUint16At` from `util/typed-array`
(big-endian unless the little-endian flag is passed). -/
def readUint16At (buf : List Nat) (offset : Nat) (littleEndian : Bool := false) : Nat :=
  if littleEndian then
    buf.getD offset 0 + 256 * buf.getD (offset + 1) 0
  else
    256 * buf.getD offset 0 + buf.getD (offset + 1) 0

/-- `bKGD.load` as implemented in `src/unnamed/part_001`: the payload is
extracted as a subarray, and every sample is read at the chunk's fixed
`dataOffset` (8) — the loop's `offset` variable is incremented but never used
by the read. -/
def bKGD_load_v1 (b : BKGDState) (abuf : List Nat) : Except PngError BKGDState :=
  let dataOffset := 8
  let backgroundInfo := (abuf.drop dataOffset).take b.calculatePayloadSize
  let color :=
    if isIndexed b.colorType then
      [readUint8At backgroundInfo dataOffset]
    else
      (List.range (determineBackgroundSamplesPerEntry b.colorType)).map
        (fun _ => readUint16At backgroundInfo dataOffset true)
  b.setBackgroundColor color

/-- `bKGD.load` as implemented in `src/src/chunks/bkgd.js`: the chunk bytes
are copied into the chunk's own buffer and every sample is read at the fixed
`dataOffset` (8) — the loop's `offset` variable is incremented but never used
by the read. -/
def bKGD_load_v2 (b : BKGDState) (abuf : List Nat) : Except PngError BKGDState :=
  let dataOffset := 8
  let buffer := abuf.take b.calculateChunkLength
  let color :=
    if isIndexed b.colorType then
      [readUint8At buffer dataOffset]
    else
      (List.range (determineBackgroundSamplesPerEntry b.colorType)).map
        (fun _ => readUint16At buffer dataOffset)
  b.setBackgroundColor color

/-- Position argument of the pixel accessors: either a linear raster index or
an (x, y) pair. -/
inductive Pos where
  | idx (i : Nat)
  | xy (x y : Nat)
deriving DecidableEq, Repr

/-- State of an `RnPng` image document: metadata plus the present chunks
(palette, transparency and background are optional). -/
structure RnPngState where
  meta : MetaData
  plte : Option PLTEState
  trns : Option TRNSState
  bkgd : Option BKGDState
  idat : IDATState
deriving DecidableEq, Repr

/-- `_applyMetaData` validation: bit depth must be one of 1/2/4/8 and not
above 8; color type must be one of the five canonical values. -/
def applyMetaDataCheck (m : MetaData) : Except PngError Unit :=
  if m.depth ≠ 1 ∧ m.depth ≠ 2 ∧ m.depth ≠ 4 ∧ m.depth ≠ 8 then
    .error .invalidMetadata
  else if 8 < m.depth then
    .error .invalidMetadata
  else if m.colorType ≠ ColorTypes.GRAYSCALE ∧ m.colorType ≠ ColorTypes.TRUECOLOR
      ∧ m.colorType ≠ ColorTypes.INDEXED ∧ m.colorType ≠ ColorTypes.GRAYSCALE_AND_ALPHA
      ∧ m.colorType ≠ ColorTypes.TRUECOLOR_AND_ALPHA then
    .error .invalidMetadata
  else
    .ok ()

/-- The `RnPng` constructor: validates metadata, builds the chunk set (a
palette chunk is present exactly for the indexed color type) and allocates the
`IDAT` sample buffer. -/
def mkRnPng (m : MetaData) : Except PngError RnPngState := do
  applyMetaDataCheck m
  .ok { meta := m,
        plte := if isIndexed m.colorType then
                  some (mkPLTE (computeMaxNumberOfColors m.depth))
                else none,
        trns := none,
        bkgd := none,
        idat := mkIDAT m }

/-- Default constructor options of `RnPng` (width/height 0, depth 8, indexed
color type, zero compression/filter/interlace). -/
def defaultMetaData : MetaData :=
  { width := 0, height := 0, depth := 8, colorType := ColorTypes.INDEXED,
    compression := 0, filter := 0, interlace := 0 }

/-- `_translateXyToIndex` on the orchestrator. -/
def RnPngState.translateXyToIndex (d : RnPngState) (x y : Nat) : Nat :=
  let fullPixelSize := determineFullPixelSize d.meta.colorType
  y * (d.meta.width * fullPixelSize) + x * fullPixelSize

/-- Position resolution shared by the pixel accessors. -/
def RnPngState.resolveIndex (d : RnPngState) (pos : Pos) : Nat :=
  match pos with
  | .idx i => i
  | .xy x y => d.translateXyToIndex x y

/-- `RnPng.doesColorExistInTransparencies`. -/
def RnPngState.doesColorExistInTransparencies (d : RnPngState) (color : List Nat) : Bool :=
  match d.trns with
  | some t => t.isTransparencySet color
  | none => false

/-- `RnPng.setTransparency` with a palette index: auto-creates the `tRNS`
chunk when absent, then stores the alpha keyed by the palette index. -/
def RnPngState.setTransparencyOf (d : RnPngState) (value index : Nat) : RnPngState :=
  let t := d.trns.getD (mkTRNS d.meta.colorType)
  { d with trns := some (t.setTransparencyOf value index) }

/-- `RnPng.setTransparency` without an index: auto-creates the `tRNS` chunk
when absent, then records a literal color key. -/
def RnPngState.setTransparencyColorKey (d : RnPngState) (color : List Nat) : RnPngState :=
  let t := d.trns.getD (mkTRNS d.meta.colorType)
  { d with trns := some (t.setTransparencyKey color) }

/-- `RnPng.removeTransparency`: fails with `NoTransparency` when the chunk is
absent; for indexed images resolves the color through the palette, otherwise
removes the color key. -/
def RnPngState.removeTransparency (d : RnPngState) (color : List Nat) :
    Except PngError RnPngState :=
  match d.trns with
  | none => .error .noTransparency
  | some t =>
    if isIndexed d.meta.colorType then
      match d.plte with
      | none => .error .noPalette
      | some p =>
        .ok { d with trns := some (t.removeTransparencyOf (p.getPaletteIndex color)) }
    else
      .ok { d with trns := some (t.removeTransparencyKey color) }

/-- `RnPng.getPixelAt`: resolves the position, and for alpha-carrying types
returns the raw tuple; for indexed images resolves the stored palette index
through the palette and, only when a `tRNS` chunk exists, appends the alpha
from the transparency table (unset entries default to 255). -/
def RnPngState.getPixelAt (d : RnPngState) (pos : Pos) : Except PngError (List Nat) :=
  let index := d.resolveIndex pos
  if hasAlphaSample d.meta.colorType then
    .ok (d.idat.getPixelOf index)
  else
    let pixel := d.idat.getPixelOf index
    if isIndexed d.meta.colorType then
      match pixel with
      | [pixelIndex] =>
        match d.plte with
        | none => .error .noPalette
        | some p =>
          match p.palette.get? pixelIndex with
          | none => .error .indexOutOfRange
          | some color =>
            match d.trns with
            | none => .ok color
            | some t => .ok (color ++ [(t.getValueOf pixelIndex).getD 255])
      | _ => .error .indexOutOfRange
    else
      .ok pixel

/-- `RnPng.setPixelAt`: validates the sample arity (`InsufficientSamples`),
then dispatches on the color type — alpha-carrying types truncate and write
directly; indexed images look up or insert the color in the palette and store
the index (recording a supplied trailing opacity in the transparency table);
grayscale/truecolor write the color and translate a trailing opacity sample
into color-key transparency insertion or removal. -/
def RnPngState.setPixelAt (d : RnPngState) (pos : Pos) (data : List Nat) :
    Except PngError RnPngState :=
  let index := d.resolveIndex pos
  let fullPixelSize := if isIndexed d.meta.colorType then 3
                       else determineFullPixelSize d.meta.colorType
  if data.length < fullPixelSize then
    .error .insufficientSamples
  else if hasAlphaSample d.meta.colorType then
    .ok { d with idat := d.idat.setPixelOfList index (data.take fullPixelSize) }
  else
    let d2 := data.take (fullPixelSize + 1)
    let colorData := d2.take fullPixelSize
    let opacityData := if fullPixelSize < d2.length then d2.getLast? else none
    if isIndexed d.meta.colorType then
      match d.plte with
      | none => .error .noPalette
      | some p =>
        match (if p.isColorInPalette colorData then .ok (p.getPaletteIndex colorData, p)
               else p.addColor colorData) with
        | .error e => .error e
        | .ok (paletteIndex, p') =>
          let d' := { d with plte := some p',
                             idat := d.idat.setPixelOfValue index paletteIndex }
          match opacityData with
          | none => .ok d'
          | some o => .ok (d'.setTransparencyOf o paletteIndex)
    else
      let d' := { d with idat := d.idat.setPixelOfList index colorData }
      match opacityData with
      | none => .ok d'
      | some o =>
        if o = 255 ∧ d'.doesColorExistInTransparencies colorData then
          d'.removeTransparency colorData
        else
          .ok (d'.setTransparencyColorKey colorData)

/-- `RnPng.getPalette` (fails with `NoPalette` when the chunk is absent). -/
def RnPngState.getPalette (d : RnPngState) : Except PngError (List (List Nat)) :=
  match d.plte with
  | none => .error .noPalette
  | some p => .ok p.palette

/-- `RnPng.getPaletteIndexAt`: fails with `NoPalette` when no palette chunk is
present; reads the stored raster value and fails with `IndexOutOfRange` when
it is at or past the palette length. -/
def RnPngState.getPaletteIndexAt (d : RnPngState) (pos : Pos) : Except PngError Nat :=
  match d.plte with
  | none => .error .noPalette
  | some p =>
    let index := d.resolveIndex pos
    match d.idat.getValueAt index with
    | none => .error .indexOutOfRange
    | some paletteIndex =>
      if p.palette.length ≤ paletteIndex then .error .indexOutOfRange
      else .ok paletteIndex

/-- `RnPng.getPaletteColorAt`: `getPaletteIndexAt` followed by
`PLTE.getColorOf`. -/
def RnPngState.getPaletteColorAt (d : RnPngState) (pos : Pos) : Except PngError (List Nat) :=
  match d.plte with
  | none => .error .noPalette
  | some p =>
    match d.getPaletteIndexAt pos with
    | .error e => .error e
    | .ok paletteIndex => p.getColorOf paletteIndex

/-- `RnPng.getBackground`: returns the stored background color, or `none`
(JavaScript `undefined`) when no background chunk exists. -/
def RnPngState.getBackground (d : RnPngState) : Option (List Nat) :=
  d.bkgd.map (fun b => b.backgroundColor)

/-- `RnPng.setBackground`: when a palette chunk is present and no background
chunk exists, overwrite palette entry 0 (the de-facto background) and return;
otherwise create the background chunk if needed and store the color. -/
def RnPngState.setBackground (d : RnPngState) (color : List Nat) :
    Except PngError RnPngState :=
  match d.plte, d.bkgd with
  | some p, none => .ok { d with plte := some (p.setColorOf 0 color) }
  | _, _ =>
    let b := d.bkgd.getD (mkBKGD d.meta.colorType)
    match b.setBackgroundColor color with
    | .error e => .error e
    | .ok b' => .ok { d with bkgd := some b' }

/-- Concrete 1-by-1 indexed document with a one-entry palette, no transparency
chunk, and palette index 0 stored at the only pixel. -/
def c3Doc : RnPngState :=
  { meta := { width := 1, height := 1, depth := 8, colorType := ColorTypes.INDEXED,
              compression := 0, filter := 0, interlace := 0 },
    plte := some { maxNumberOfColors := 256, palette := [[10, 20, 30]] },
    trns := none,
    bkgd := none,
    idat := { width := 1, height := 1, depth := 8, colorType := ColorTypes.INDEXED,
              numberOfPixels := 1, pixelData := [0] } }

/-- Concrete 2-by-1 indexed document with an empty palette (the spec's example
scenario before any pixel writes). -/
def c5Doc : RnPngState :=
  { meta := { width := 2, height := 1, depth := 8, colorType := ColorTypes.INDEXED,
              compression := 0, filter := 0, interlace := 0 },
    plte := some (mkPLTE 256),
    trns := none,
    bkgd := none,
    idat := { width := 2, height := 1, depth := 8, colorType := ColorTypes.INDEXED,
              numberOfPixels := 2, pixelData := [0, 0, 0] } }

/-- Concrete 1-by-1 grayscale document with an existing color-key transparency
entry for gray value 7. -/
def c8Doc : RnPngState :=
  { meta := { width := 1, height := 1, depth := 8, colorType := ColorTypes.GRAYSCALE,
              compression := 0, filter := 0, interlace := 0 },
    plte := none,
    trns := some { colorType := ColorTypes.GRAYSCALE, alphas := [], colorKeys := [[7]] },
    bkgd := none,
    idat := { width := 1, height := 1, depth := 8, colorType := ColorTypes.GRAYSCALE,
              numberOfPixels := 1, pixelData := [0, 0] } }

/-- Modelled from the spec: `determineDataRowLength` from `util/pixels` — the
number of packed bytes per scanline for the given bit depth and color type. -/
def determineDataRowLength (depth colorType width : Nat) : Nat :=
  (width * determineFullPixelSize colorType * depth + 7) / 8

/-- Modelled from the spec: `packByteData` from `util/typed-array` packs the
one-byte-per-sample raster into the bit-packed PNG representation — several
sub-byte samples merged big-endian per output byte; depth 8 is a no-op.  A
trailing partial group is left-justified (shifted into the high bits). -/
def packByteData (data : List Nat) (depth : Nat) : List Nat :=
  if depth = 8 then data
  else
    let per := 8 / depth
    (List.range ((data.length + per - 1) / per)).map (fun i =>
      let g := (data.drop (i * per)).take per
      (g.foldl (fun acc s => acc * 2 ^ depth + s % 2 ^ depth) 0) * 2 ^ (depth * (per - g.length)))

/-- Modelled from the spec: `unpackByteData` from `util/typed-array` unpacks
bit-packed samples back into one byte per sample; depth 8 is a no-op. -/
def unpackByteData (data : List Nat) (depth : Nat) : List Nat :=
  if depth = 8 then data
  else
    let per := 8 / depth
    data.flatMap (fun b =>
      (List.range per).map (fun i => b / 2 ^ (depth * (per - 1 - i)) % 2 ^ depth))

/-- Modelled from the spec: `addFilterFields` from `util/compress-decompress`
prepends a filter-type byte (None, 0) to every scanline. -/
def addFilterFields (data : List Nat) (rowLength height : Nat) : List Nat :=
  (List.range height).flatMap (fun y => 0 :: ((data.drop (y * rowLength)).take rowLength))

/-- Modelled from the spec: `removeFilterFields` from
`util/compress-decompress` strips the leading filter-type byte of every
scanline. -/
def removeFilterFields (data : List Nat) (rowLength height : Nat) : List Nat :=
  (List.range height).flatMap (fun y => (data.drop (y * (rowLength + 1) + 1)).take rowLength)

/-- Modelled from the spec: the standard Paeth predictor. -/
def paethPredictor (a b c : Nat) : Nat :=
  let p : Int := (a : Int) + b - c
  let pa := (p - a).natAbs
  let pb := (p - b).natAbs
  let pc := (p - c).natAbs
  if pa ≤ pb ∧ pa ≤ pc then a else if pb ≤ pc then b else c

/-- Modelled from the spec: one byte of inverse scanline filtering
(None/Sub/Up/Average/Paeth selected by the row's filter-type byte). -/
def defilterRowStep (ft fps : Nat) (prev acc : List Nat) (pos raw : Nat) : Nat :=
  let a := if pos < fps then 0 else acc.getD (pos - fps) 0
  let b := prev.getD pos 0
  let c := if pos < fps then 0 else prev.getD (pos - fps) 0
  match ft with
  | 0 => raw % 256
  | 1 => (raw + a) % 256
  | 2 => (raw + b) % 256
  | 3 => (raw + (a + b) / 2) % 256
  | 4 => (raw + paethPredictor a b c) % 256
  | _ => raw % 256

/-- Modelled from the spec: inverse-filter one scanline given the
reconstructed previous scanline. -/
def defilterRow (ft fps : Nat) (prev row : List Nat) : List Nat :=
  row.foldl (fun acc raw => acc ++ [defilterRowStep ft fps prev acc acc.length raw]) []

/-- Modelled from the spec: `defilter` from `util/compress-decompress` applies
the inverse scanline filters in place over rows of `1 + width·fullPixelSize`
bytes (the filter-type bytes are kept; a trailing incomplete row is left
untouched). -/
def defilter (data : List Nat) (width fps : Nat) : List Nat :=
  let rowBytes := width * fps
  let n := data.length / (rowBytes + 1)
  let out := (List.range n).foldl
    (fun (st : List Nat × List Nat) y =>
      let chunk := (data.drop (y * (rowBytes + 1))).take (rowBytes + 1)
      let ft := chunk.headD 0
      let row := chunk.drop 1
      let recon := defilterRow ft fps st.1 row
      (recon, st.2 ++ (ft :: recon)))
    (List.replicate rowBytes 0, [])
  out.2 ++ data.drop (n * (rowBytes + 1))

/-- `IDAT.load` (decode path): extract the compressed range past the chunk's
data offset, `inflate` it, apply inverse scanline filters for depths of at
least 8 on non-indexed color types, strip the filter bytes and unpack into
one byte per sample (each stage stored through `Uint8ClampedArray.from`,
hence the clamping). -/
def IDATState.load (s : IDATState) (inflateFn : List Nat → List Nat) (abuf : List Nat) :
    IDATState :=
  let dataOffset := 8
  let compressedZlibData := abuf.drop dataOffset
  let uncompressedData := inflateFn compressedZlibData
  let fullPixelSize :=
    determinePixelColorSize s.colorType + (if hasAlphaSample s.colorType then 1 else 0)
  let un2 := if 8 ≤ s.depth ∧ s.colorType ≠ ColorTypes.INDEXED then
               defilter uncompressedData s.width fullPixelSize
             else uncompressedData
  let pixelOnlyData :=
    (removeFilterFields un2 (determineDataRowLength s.depth s.colorType s.width) s.height).map
      clamp8
  { s with pixelData := (unpackByteData pixelOnlyData s.depth).map clamp8 }

/-- The document built by the `RnPng` constructor for the 2-by-1 indexed
example. -/
def c4Doc : RnPngState :=
  { meta := { width := 2, height := 1, depth := 8, colorType := ColorTypes.INDEXED,
              compression := 0, filter := 0, interlace := 0 },
    plte := some (mkPLTE 256),
    trns := none,
    bkgd := none,
    idat := { width := 2, height := 1, depth := 8, colorType := ColorTypes.INDEXED,
              numberOfPixels := 2, pixelData := [0, 0, 0] } }

/-- Modelled from the spec: big-endian 32-bit write from the byte-buffer
primitives. -/
def u32BE (n : Nat) : List Nat :=
  [n / 2 ^ 24 % 256, n / 2 ^ 16 % 256, n / 2 ^ 8 % 256, n % 256]

/-- Modelled from the spec: big-endian 32-bit read at an offset. -/
def readU32BE (buf : List Nat) (offset : Nat) : Nat :=
  2 ^ 24 * buf.getD offset 0 + 2 ^ 16 * buf.getD (offset + 1) 0
    + 2 ^ 8 * buf.getD (offset + 2) 0 + buf.getD (offset + 3) 0

/-- Modelled from the spec: little-endian 16-bit write (the flag passed to
`writeUint16` by the background chunk). -/
def u16LE (n : Nat) : List Nat := [n % 256, n / 256 % 256]

/-- Modelled from the spec: big-endian 16-bit write. -/
def u16BE (n : Nat) : List Nat := [n / 256 % 256, n % 256]

/-- One step of the standard CRC-32 bit loop (polynomial 0xEDB88320). -/
def crc32Step (c : Nat) : Nat :=
  if c % 2 = 1 then Nat.xor 0xEDB88320 (c / 2) else c / 2

/-- Modelled from the spec: standard CRC-32 over a byte list (an external
primitive of the chunk framework). -/
def crc32 (data : List Nat) : Nat :=
  Nat.xor
    (data.foldl
      (fun c b => (List.range 8).foldl (fun c2 _ => crc32Step c2) (Nat.xor c (b % 256)))
      0xFFFFFFFF)
    0xFFFFFFFF

/-- Does `seq` occur in `buf` starting exactly at position `i`? -/
def matchesAt (buf seq : List Nat) (i : Nat) : Bool :=
  decide (((buf.drop i).take seq.length) = seq)

/-- Modelled from the spec: `indexOfSequence` from `util/typed-array` — the
first position at or after `start` where the sequence occurs (`none` models
the source's `-1`). -/
def indexOfSequence (buf seq : List Nat) (start : Nat) : Option Nat :=
  (List.range (buf.length + 1)).find? (fun i => decide (start ≤ i) && matchesAt buf seq i)

/-- The 8-byte PNG signature written by the prefix chunk. -/
def pngSignature : List Nat := [137, 80, 78, 71, 13, 10, 26, 10]

/-- ASCII bytes of the IHDR chunk type. -/
def seqIHDR : List Nat := [73, 72, 68, 82]

/-- ASCII bytes of the PLTE chunk type. -/
def seqPLTE : List Nat := [80, 76, 84, 69]

/-- ASCII bytes of the tRNS chunk type. -/
def seqtRNS : List Nat := [116, 82, 78, 83]

/-- ASCII bytes of the bKGD chunk type. -/
def seqbKGD : List Nat := [98, 75, 71, 68]

/-- ASCII bytes of the IDAT chunk type. -/
def seqIDAT : List Nat := [73, 68, 65, 84]

/-- ASCII bytes of the IEND chunk type. -/
def seqIEND : List Nat := [73, 69, 78, 68]

/-- Standard chunk framing: 4-byte big-endian length, 4-byte type, payload,
4-byte CRC32 over type plus payload (spec section 4.1). -/
def chunkWrap (lenField : Nat) (typeSeq payload : List Nat) : List Nat :=
  u32BE lenField ++ typeSeq ++ payload ++ u32BE (crc32 (typeSeq ++ payload))

/-- Modelled from the spec: the encoded IHDR chunk — 13-byte payload of
big-endian width and height followed by depth, color type, compression,
filter and interlace bytes (spec section 4.2). -/
def ihdrBuffer (m : MetaData) : List Nat :=
  chunkWrap 13 seqIHDR
    (u32BE m.width ++ u32BE m.height
      ++ [m.depth, m.colorType, m.compression, m.filter, m.interlace])

/-- Modelled from the spec: the encoded PLTE chunk — the ordered RGB triples
flattened (spec section 4.4). -/
def plteBuffer (p : PLTEState) : List Nat :=
  chunkWrap p.palette.flatten.length seqPLTE p.palette.flatten

/-- Modelled from the spec: the encoded tRNS chunk — the per-index alpha
table for indexed images, or the color-key sample tuples as 16-bit big-endian
samples otherwise (spec section 4.5). -/
def trnsBuffer (t : TRNSState) : List Nat :=
  let payload := if isIndexed t.colorType then t.alphas
                 else t.colorKeys.flatten.flatMap u16BE
  chunkWrap payload.length seqtRNS payload

/-- The encoded bKGD chunk per `src/chunks/bkgd.js` `update()`: a single
palette-index byte for indexed images, 16-bit samples (little-endian flag
passed) otherwise. -/
def bkgdBuffer (b : BKGDState) : List Nat :=
  let payload := if isIndexed b.colorType then [b.backgroundColor.getD 0 0]
                 else b.backgroundColor.flatMap u16LE
  chunkWrap b.calculatePayloadSize seqbKGD payload

/-- Modelled from the spec: the encoded IEND chunk (empty payload). -/
def iendBuffer : List Nat :=
  chunkWrap 0 seqIEND []

/-- The filtered pixel stream produced inside `IDAT.update`: pack the raster
by bit depth (clamped through `Uint8ClampedArray.from`), then prefix a filter
byte per scanline (clamped again). -/
def IDATState.filteredData (s : IDATState) : List Nat :=
  (addFilterFields ((packByteData s.pixelData s.depth).map clamp8)
    (determineDataRowLength s.depth s.colorType s.width) s.height).map clamp8

/-- The encoded IDAT chunk per `IDAT.update`: predicted payload-size length
field, type, the deflated stream copied at the data offset (the remainder of
the payload region stays zero), and the CRC over type plus payload region. -/
def idatBuffer (s : IDATState) (deflateFn : List Nat → List Nat) : List Nat :=
  let payloadSize := s.calculatePayloadSize
  let out := deflateFn s.filteredData
  let payload := out.take payloadSize ++ List.replicate (payloadSize - out.length) 0
  u32BE payloadSize ++ seqIDAT ++ payload ++ u32BE (crc32 (seqIDAT ++ payload))

/-- `RnPng.getBuffer` (save): update every present chunk and concatenate the
chunk buffers in canonical order — signature, IHDR, PLTE, tRNS, bKGD, IDAT,
IEND. -/
def RnPngState.getBuffer (d : RnPngState) (deflateFn : List Nat → List Nat) : List Nat :=
  pngSignature ++ ihdrBuffer d.meta
    ++ (match d.plte with | some p => plteBuffer p | none => [])
    ++ (match d.trns with | some t => trnsBuffer t | none => [])
    ++ (match d.bkgd with | some b => bkgdBuffer b | none => [])
    ++ idatBuffer d.idat deflateFn
    ++ iendBuffer

/-- Modelled from the spec: `IHDR.load` parses the 13-byte payload at the
chunk's data offset — big-endian width and height, then single-byte depth,
color type, compression, filter and interlace (spec section 4.2). -/
def parseIHDR (abuf : List Nat) : MetaData :=
  { width := readU32BE abuf 8,
    height := readU32BE abuf 12,
    depth := readUint8At abuf 16,
    colorType := readUint8At abuf 17,
    compression := readUint8At abuf 18,
    filter := readUint8At abuf 19,
    interlace := readUint8At abuf 20 }

/-- Modelled from the spec: `PLTE.load` reads the payload length from the
length field and parses consecutive RGB triples. -/
def PLTE_load (p : PLTEState) (abuf : List Nat) : PLTEState :=
  let len := readU32BE abuf 0
  { p with palette := (List.range (len / 3)).map (fun j => ((abuf.drop (8 + 3 * j)).take 3)) }

/-- Modelled from the spec: `tRNS.load` reads the alpha table (indexed) or
the 16-bit color-key samples grouped per color (non-indexed). -/
def TRNS_load (t : TRNSState) (abuf : List Nat) : TRNSState :=
  let len := readU32BE abuf 0
  if isIndexed t.colorType then
    { t with alphas := (abuf.drop 8).take len }
  else
    let pcs := determinePixelColorSize t.colorType
    { t with colorKeys := (List.range (len / (2 * pcs))).map (fun j =>
        (List.range pcs).map (fun k => readUint16At abuf (8 + 2 * (j * pcs + k)))) }

/-- `_loadChunk` for IHDR: parse the header and re-apply the document's
canonical metadata (validation may fail with `InvalidMetadata`). -/
def fromStepIHDR (d : RnPngState) (buf : List Nat) (startIndex : Nat) :
    Except PngError (RnPngState × Nat) :=
  match indexOfSequence buf seqIHDR startIndex with
  | none => .ok (d, startIndex)
  | some i =>
    let abuf := buf.drop (i - 4)
    let m := parseIHDR abuf
    match applyMetaDataCheck m with
    | .error e => .error e
    | .ok _ => .ok ({ d with meta := m }, i + 4)

/-- `_loadChunk` for PLTE: create a fresh palette chunk sized from the loaded
depth and parse it. -/
def fromStepPLTE (d : RnPngState) (buf : List Nat) (startIndex : Nat) : RnPngState × Nat :=
  match indexOfSequence buf seqPLTE startIndex with
  | none => (d, startIndex)
  | some i =>
    let p := PLTE_load (mkPLTE (computeMaxNumberOfColors d.meta.depth)) (buf.drop (i - 4))
    ({ d with plte := some p }, i + 4)

/-- `_loadChunk` for tRNS: create a fresh transparency chunk for the loaded
color type and parse it. -/
def fromStepTRNS (d : RnPngState) (buf : List Nat) (startIndex : Nat) : RnPngState × Nat :=
  match indexOfSequence buf seqtRNS startIndex with
  | none => (d, startIndex)
  | some i =>
    ({ d with trns := some (TRNS_load (mkTRNS d.meta.colorType) (buf.drop (i - 4))) }, i + 4)

/-- `_loadChunk` for bKGD: create a fresh background chunk for the loaded
color type and parse it (`src/chunks/bkgd.js` implementation). -/
def fromStepBKGD (d : RnPngState) (buf : List Nat) (startIndex : Nat) :
    Except PngError (RnPngState × Nat) :=
  match indexOfSequence buf seqbKGD startIndex with
  | none => .ok (d, startIndex)
  | some i =>
    match bKGD_load_v2 (mkBKGD d.meta.colorType) (buf.drop (i - 4)) with
    | .error e => .error e
    | .ok b => .ok ({ d with bkgd := some b }, i + 4)

/-- `_loadChunk` for IDAT: re-apply the loaded layout information, then run
the decode path. -/
def fromStepIDAT (d : RnPngState) (inflateFn : List Nat → List Nat) (buf : List Nat)
    (startIndex : Nat) : RnPngState × Nat :=
  match indexOfSequence buf seqIDAT startIndex with
  | none => (d, startIndex)
  | some i =>
    let s := (d.idat.applyLayoutInformation d.meta).load inflateFn (buf.drop (i - 4))
    ({ d with idat := s }, i + 4)

/-- `RnPng.from` (load): structural verification of the signature, IHDR,
IDAT and IEND markers (`NotAPng` otherwise), deletion of the default palette
chunk, then a scan over the supported chunk order locating each chunk by its
magic sequence and loading it from the surrounding byte range. -/
def RnPngState.fromBuffer (d0 : RnPngState) (inflateFn : List Nat → List Nat)
    (buf : List Nat) : Except PngError RnPngState :=
  if (indexOfSequence buf pngSignature 0).isSome
      && (indexOfSequence buf seqIHDR 0).isSome
      && (indexOfSequence buf seqIDAT 0).isSome
      && (indexOfSequence buf seqIEND 0).isSome then
    let d1 := { d0 with plte := none }
    match fromStepIHDR d1 buf 0 with
    | .error e => .error e
    | .ok (d2, s2) =>
      let (d3, s3) := fromStepPLTE d2 buf s2
      let (d4, s4) := fromStepTRNS d3 buf s3
      match fromStepBKGD d4 buf s4 with
      | .error e => .error e
      | .ok (d5, s5) =>
        let (d6, _) := fromStepIDAT d5 inflateFn buf s5
        .ok d6
  else
    .error .notAPng

/-- The document produced by the default `RnPng` constructor (the fresh
document a buffer is loaded into). -/
def freshRnPng : RnPngState :=
  { meta := defaultMetaData,
    plte := some (mkPLTE 256),
    trns := none,
    bkgd := none,
    idat := { width := 0, height := 0, depth := 8, colorType := ColorTypes.INDEXED,
              numberOfPixels := 0, pixelData := [] } }

/-- A codec whose inflate inverts deflate exactly, but misbehaves when any
trailing bytes follow the deflated stream: deflate prepends the input length,
inflate checks that the length matches exactly. -/
def c1deflate (b : List Nat) : List Nat := b.length :: b

/-- Inflate half of the exact-length codec: recovers the stream only when
nothing was appended to it. -/
def c1inflate (x : List Nat) : List Nat :=
  if x.length = x.headD 0 + 1 then x.tail else []

/-- Concrete fully-written 1-by-1 grayscale depth-8 document with pixel value
5 (the sample buffer has the constructor's pixel-and-filter size 2). -/
def c1Doc : RnPngState :=
  { meta := { width := 1, height := 1, depth := 8, colorType := ColorTypes.GRAYSCALE,
              compression := 0, filter := 0, interlace := 0 },
    plte := none, trns := none, bkgd := none,
    idat := { width := 1, height := 1, depth := 8, colorType := ColorTypes.GRAYSCALE,
              numberOfPixels := 1, pixelData := [5, 0] } }

/-- The fold inside `packByteData` that merges one group of sub-byte samples
into a byte (base `B = 2^depth`, big-endian digit order). -/
def packVal (B : Nat) (g : List Nat) : Nat :=
  g.foldl (fun a s => a * B + s % B) 0

/-- Byte length contributed by an optional chunk in the saved buffer. -/
def optLen {α : Type} (f : α → List Nat) : Option α → Nat
  | some v => (f v).length
  | none => 0

/-- Start offset of the PLTE chunk region in the saved buffer. -/
def plteStartOff (d : RnPngState) : Nat := 8 + (ihdrBuffer d.meta).length

/-- Start offset of the tRNS chunk region in the saved buffer. -/
def trnsStartOff (d : RnPngState) : Nat := plteStartOff d + optLen plteBuffer d.plte

/-- Start offset of the bKGD chunk region in the saved buffer. -/
def bkgdStartOff (d : RnPngState) : Nat := trnsStartOff d + optLen trnsBuffer d.trns

/-- Start offset of the IDAT chunk in the saved buffer. -/
def idatStartOff (d : RnPngState) : Nat := bkgdStartOff d + optLen bkgdBuffer d.bkgd

/-- Scan start index reached after the PLTE step of `RnPng.from`. -/
def scanS3 (d : RnPngState) : Nat :=
  match d.plte with
  | some _ => plteStartOff d + 8
  | none => 16

/-- Scan start index reached after the tRNS step of `RnPng.from`. -/
def scanS4 (d : RnPngState) : Nat :=
  match d.trns with
  | some _ => trnsStartOff d + 8
  | none => scanS3 d

/-- Scan start index reached after the bKGD step of `RnPng.from`. -/
def scanS5 (d : RnPngState) : Nat :=
  match d.bkgd with
  | some _ => bkgdStartOff d + 8
  | none => scanS4 d

/-- The magic-sequence scans of `RnPng.from` locate every chunk of the saved
buffer at the offset it was written to (no accidental earlier occurrence of a
chunk-type byte sequence inside other chunk data). -/
def scanOk (d : RnPngState) (buf : List Nat) : Prop :=
  indexOfSequence buf seqIHDR 0 = some 12
  ∧ indexOfSequence buf seqPLTE 16
      = (match d.plte with | some _ => some (plteStartOff d + 4) | none => none)
  ∧ indexOfSequence buf seqtRNS (scanS3 d)
      = (match d.trns with | some _ => some (trnsStartOff d + 4) | none => none)
  ∧ indexOfSequence buf seqbKGD (scanS4 d)
      = (match d.bkgd with | some _ => some (bkgdStartOff d + 4) | none => none)
  ∧ indexOfSequence buf seqIDAT (scanS5 d) = some (idatStartOff d + 4)
  ∧ (indexOfSequence buf pngSignature 0).isSome = true
  ∧ (indexOfSequence buf seqIDAT 0).isSome = true
  ∧ (indexOfSequence buf seqIEND 0).isSome = true

/-- Well-formedness of a fully-written document: validated metadata, 32-bit
representable dimensions, pixel-chunk layout fields in sync with the
metadata, the constructor-sized sample buffer holding bit-depth-ranged
samples, byte-aligned scanlines, and representable palette and transparency
tables. -/
def C1Wf (d : RnPngState) : Prop :=
  applyMetaDataCheck d.meta = .ok ()
  ∧ d.meta.width < 2 ^ 32
  ∧ d.meta.height < 2 ^ 32
  ∧ d.idat.width = d.meta.width
  ∧ d.idat.height = d.meta.height
  ∧ d.idat.depth = d.meta.depth
  ∧ d.idat.colorType = d.meta.colorType
  ∧ d.idat.pixelData.length
      = (d.meta.width * determineFullPixelSize d.meta.colorType + 1) * d.meta.height
  ∧ (∀ v ∈ d.idat.pixelData, v < 2 ^ d.meta.depth)
  ∧ (8 / d.meta.depth) ∣ d.meta.width * determineFullPixelSize d.meta.colorType
  ∧ (match d.plte with
     | some p => (∀ c ∈ p.palette, c.length = 3) ∧ p.palette.flatten.length < 2 ^ 32
     | none => True)
  ∧ (match d.trns with
     | some t => t.colorType = d.meta.colorType ∧ t.alphas.length < 2 ^ 32
     | none => True)

/-- The document state entering the chunk scan of `RnPng.from`: canonical
metadata applied, default palette deleted, constructor-fresh pixel chunk. -/
def loadBase (m : MetaData) : RnPngState :=
  { meta := m, plte := none, trns := none, bkgd := none, idat := freshRnPng.idat }

/-- The palette chunk produced by reloading a saved document (present exactly
when the saved document had one, its entries re-parsed from the buffer). -/
def loadedPlte (d : RnPngState) : Option PLTEState :=
  d.plte.map (fun p =>
    { mkPLTE (computeMaxNumberOfColors d.meta.depth) with palette := p.palette })

/-- The transparency chunk produced by reloading a saved document. -/
def loadedTrns (d : RnPngState) (deflateFn : List Nat → List Nat) : Option TRNSState :=
  d.trns.map (fun _ =>
    TRNS_load (mkTRNS d.meta.colorType) ((d.getBuffer deflateFn).drop (trnsStartOff d)))

/-- The pixel-data chunk produced by reloading a saved document. -/
def loadedIdat (d : RnPngState) (inflateFn deflateFn : List Nat → List Nat) : IDATState :=
  (freshRnPng.idat.applyLayoutInformation d.meta).load inflateFn
    ((d.getBuffer deflateFn).drop (idatStartOff d))

/-- The reloading document after the palette scan step. -/
def loadPhase2 (d : RnPngState) : RnPngState :=
  { loadBase d.meta with plte := loadedPlte d }

/-- The reloading document after the transparency scan step. -/
def loadPhase3 (d : RnPngState) (deflateFn : List Nat → List Nat) : RnPngState :=
  { loadPhase2 d with trns := loadedTrns d deflateFn }

/-- The reloading document after the background scan step. -/
def loadPhase4 (d : RnPngState) (deflateFn : List Nat → List Nat)
    (bN : Option BKGDState) : RnPngState :=
  { loadPhase3 d deflateFn with bkgd := bN }

/-- The fully reloaded document. -/
def loadFinal (d : RnPngState) (inflateFn deflateFn : List Nat → List Nat)
    (bN : Option BKGDState) : RnPngState :=
  { loadPhase4 d deflateFn bN with idat := loadedIdat d inflateFn deflateFn }

/-- A tolerant codec: deflate records the stream length, inflate recovers
exactly the recorded stream and ignores any appended bytes. -/
def c1amDeflate (b : List Nat) : List Nat := b.length :: b

/-- Inflate half of the tolerant codec. -/
def c1amInflate (x : List Nat) : List Nat := x.tail.take (x.headD 0)

/-- The source's stored-block count expression `(0xfffe + P) / 0xffff` is the
ceiling of `P / 65535`. -/
lemma floor_fffe_eq_ceil (P : ℕ) : (0xfffe + P) / 0xffff = ⌈(P : ℚ) / 65535⌉₊ := by
  have h65535 : (0:ℚ) < 65535 := by norm_num
  apply Nat.le_antisymm
  · have hle : (P : ℚ) / 65535 ≤ (⌈(P : ℚ) / 65535⌉₊ : ℚ) := Nat.le_ceil _
    rw [div_le_iff₀ h65535] at hle
    have hP : P ≤ ⌈(P : ℚ) / 65535⌉₊ * 65535 := by exact_mod_cast hle
    rw [Nat.div_le_iff_le_mul_add_pred (by norm_num)]
    omega
  · rw [Nat.ceil_le, div_le_iff₀ h65535]
    have hdm := Nat.div_add_mod (0xfffe + P) 0xffff
    have hmod : (0xfffe + P) % 0xffff < 0xffff := Nat.mod_lt _ (by norm_num)
    have hP : P ≤ ((0xfffe + P) / 0xffff) * 65535 := by
      omega
    exact_mod_cast hP

/-- C2: for every width, height, bit depth and color type the predicted
pixel-data payload size equals `2 + P + 5 * ceil(P / 65535) + 4` where
`P = calculatePixelAndFilterSize() = (width * fullPixelSize + 1) * height` and
`fullPixelSize` is the color-sample count plus one when the color type carries
an alpha sample; in particular the source expression
`5 * floor((0xfffe + P) / 0xffff)` equals `5 * ceil(P / 65535)` for every
`P ≥ 0`. -/
theorem claim_C2_payload_size (s : IDATState) :
    s.calculatePixelAndFilterSize
        = (s.width * (determinePixelColorSize s.colorType
            + (if hasAlphaSample s.colorType then 1 else 0)) + 1) * s.height
    ∧ s.calculatePayloadSize
        = 2 + s.calculatePixelAndFilterSize
            + 5 * ⌈(s.calculatePixelAndFilterSize : ℚ) / 65535⌉₊ + 4
    ∧ ∀ P : ℕ, 5 * ((0xfffe + P) / 0xffff) = 5 * ⌈(P : ℚ) / 65535⌉₊ := by
  refine ⟨rfl, ?_, fun P => by rw [floor_fffe_eq_ceil]⟩
  unfold IDATState.calculatePayloadSize
  rw [floor_fffe_eq_ceil]

/-- Elements of a replicated list are equal at every pair of valid positions. -/
lemma replicate_getD_eq (n c i j : Nat) (hi : i < n) (hj : j < n) :
    (List.replicate n c).getD i 0 = (List.replicate n c).getD j 0 := by
  rw [List.getD_eq_getElem?_getD, List.getElem?_replicate,
    List.getD_eq_getElem?_getD, List.getElem?_replicate]
  simp [hi, hj]

/-- Loading a non-indexed background in the `part_001` implementation yields a
constant sample list: every sample is read at the fixed data offset. -/
lemma bKGD_load_v1_eq (ct : Nat) (hct : isIndexed ct = false) (abuf : List Nat) :
    bKGD_load_v1 (mkBKGD ct) abuf
      = .ok { colorType := ct,
              backgroundColor := List.replicate (determineBackgroundSamplesPerEntry ct)
                (clamp8 (readUint16At
                  ((abuf.drop 8).take ((mkBKGD ct).calculatePayloadSize)) 8 true)) } := by
  unfold bKGD_load_v1 BKGDState.setBackgroundColor mkBKGD
  simp only [hct, Bool.false_eq_true, if_false, if_neg, List.map_const', List.length_range,
    List.length_map, List.map_replicate]
  simp [hct]

/-- Loading a non-indexed background in the `src/chunks/bkgd.js` implementation
yields a constant sample list: every sample is read at the fixed data offset. -/
lemma bKGD_load_v2_eq (ct : Nat) (hct : isIndexed ct = false) (abuf : List Nat) :
    bKGD_load_v2 (mkBKGD ct) abuf
      = .ok { colorType := ct,
              backgroundColor := List.replicate (determineBackgroundSamplesPerEntry ct)
                (clamp8 (readUint16At
                  (abuf.take ((mkBKGD ct).calculateChunkLength)) 8)) } := by
  unfold bKGD_load_v2 BKGDState.setBackgroundColor mkBKGD
  simp only [hct, Bool.false_eq_true, if_false, if_neg, List.map_const', List.length_range,
    List.length_map, List.map_replicate]
  simp [hct]

/-- C10: for every non-indexed color type and every input buffer, `bKGD.load`
reads each background sample at the same fixed data offset (the loop's offset
variable is never used by the read), so after loading all samples of the
stored background color are equal to one another — in both provided
implementations of the background chunk. -/
theorem claim_C10_bkgd_load_constant (colorType : Nat) (abuf : List Nat)
    (hct : isIndexed colorType = false) :
    ∃ b1 b2 : BKGDState,
      bKGD_load_v1 (mkBKGD colorType) abuf = .ok b1
      ∧ bKGD_load_v2 (mkBKGD colorType) abuf = .ok b2
      ∧ (∀ i j, i < b1.backgroundColor.length → j < b1.backgroundColor.length →
          b1.backgroundColor.getD i 0 = b1.backgroundColor.getD j 0)
      ∧ (∀ i j, i < b2.backgroundColor.length → j < b2.backgroundColor.length →
          b2.backgroundColor.getD i 0 = b2.backgroundColor.getD j 0) := by
  refine ⟨_, _, bKGD_load_v1_eq colorType hct abuf, bKGD_load_v2_eq colorType hct abuf, ?_, ?_⟩
  · intro i j hi hj
    rw [List.length_replicate] at hi hj
    exact replicate_getD_eq _ _ _ _ hi hj
  · intro i j hi hj
    rw [List.length_replicate] at hi hj
    exact replicate_getD_eq _ _ _ _ hi hj

/-- C10 witness: a concrete run of both background loads on a truecolor chunk
buffer, discharging the non-indexed hypothesis. -/
theorem claim_C10_witness :
    isIndexed ColorTypes.TRUECOLOR = false
    ∧ ∃ b1 b2 : BKGDState,
        bKGD_load_v1 (mkBKGD ColorTypes.TRUECOLOR) [0,0,0,6, 98,75,71,68, 1,2,3,4,5,6, 9,9,9,9]
            = .ok b1
        ∧ bKGD_load_v2 (mkBKGD ColorTypes.TRUECOLOR) [0,0,0,6, 98,75,71,68, 1,2,3,4,5,6, 9,9,9,9]
            = .ok b2
        ∧ (∀ i j, i < b1.backgroundColor.length → j < b1.backgroundColor.length →
            b1.backgroundColor.getD i 0 = b1.backgroundColor.getD j 0)
        ∧ (∀ i j, i < b2.backgroundColor.length → j < b2.backgroundColor.length →
            b2.backgroundColor.getD i 0 = b2.backgroundColor.getD j 0) :=
  ⟨by decide,
   claim_C10_bkgd_load_constant ColorTypes.TRUECOLOR
     [0,0,0,6, 98,75,71,68, 1,2,3,4,5,6, 9,9,9,9] (by decide)⟩

/-- A successful single-sample raster read equals a one-element pixel slice. -/
lemma take_one_drop_of_get? (l : List Nat) (i s : Nat) (h : l.get? i = some s) :
    (l.drop i).take 1 = [s] := by
  induction l generalizing i with
  | nil => simp at h
  | cons a t ih =>
    cases i with
    | zero => simp_all
    | succ n => simp_all

/-- C3 counterexample: on an indexed image with no transparency chunk,
`getPixelAt` returns the bare RGB triple — the result has no fourth (alpha)
sample at all, so it does not return a pixel whose alpha component is 255. -/
theorem claim_C3_counterexample :
    c3Doc.trns = none
    ∧ isIndexed c3Doc.meta.colorType = true
    ∧ c3Doc.getPixelAt (.idx 0) = .ok [10, 20, 30]
    ∧ ∀ pix : List Nat, c3Doc.getPixelAt (.idx 0) = .ok pix → pix.get? 3 = none := by
  refine ⟨rfl, rfl, rfl, ?_⟩
  intro pix hp
  have h0 : c3Doc.getPixelAt (.idx 0) = .ok [10, 20, 30] := rfl
  rw [h0] at hp
  injection hp with h
  subst h
  rfl

/-- C3 amended: on an indexed image, `getPixelAt` appends an alpha sample only
when a transparency chunk exists; with a transparency chunk present the alpha
defaults to 255 for every palette index with no stored entry, and with no
transparency chunk the result is the bare palette RGB triple. -/
theorem claim_C3_amended (d : RnPngState) (pos : Pos)
    (hidx : isIndexed d.meta.colorType = true)
    (hlayout : d.idat.colorType = d.meta.colorType)
    (p : PLTEState) (hp : d.plte = some p)
    (s : Nat) (hs : d.idat.pixelData.get? (d.resolveIndex pos) = some s)
    (color : List Nat) (hc : p.palette.get? s = some color) :
    (d.trns = none → d.getPixelAt pos = .ok color)
    ∧ (∀ t : TRNSState, d.trns = some t → t.getValueOf s = none →
        d.getPixelAt pos = .ok (color ++ [255])) := by
  have hct : d.meta.colorType = ColorTypes.INDEXED := by simpa [isIndexed] using hidx
  have halpha : hasAlphaSample d.meta.colorType = false := by rw [hct]; rfl
  have hpix : d.idat.getPixelOf (d.resolveIndex pos) = [s] := by
    unfold IDATState.getPixelOf
    rw [hlayout, hct]
    exact take_one_drop_of_get? _ _ _ hs
  constructor
  · intro htr
    simp only [RnPngState.getPixelAt, halpha, Bool.false_eq_true, if_false, hpix, hidx, if_true,
      hp, hc, htr]
  · intro t htr hval
    rw [TRNSState.getValueOf, List.get?_eq_getElem?] at hval
    simp only [RnPngState.getPixelAt, halpha, Bool.false_eq_true, if_false, hpix, hidx, if_true,
      hp, hc, htr, TRNSState.getValueOf]
    simp [hval]

/-- C3 amended witness: concrete indexed documents, one without and one with a
transparency chunk, where the amended statement is discharged. -/
theorem claim_C3_amended_witness :
    (c3Doc.getPixelAt (.idx 0) = .ok [10, 20, 30])
    ∧ ({ c3Doc with trns := some (mkTRNS ColorTypes.INDEXED) }.getPixelAt (.idx 0)
        = .ok [10, 20, 30, 255]) :=
  ⟨(claim_C3_amended c3Doc (.idx 0) rfl rfl _ rfl 0 rfl [10, 20, 30] rfl).1 rfl,
   (claim_C3_amended { c3Doc with trns := some (mkTRNS ColorTypes.INDEXED) } (.idx 0)
      rfl rfl _ rfl 0 rfl [10, 20, 30] rfl).2 (mkTRNS ColorTypes.INDEXED) rfl rfl⟩

/-- C7: `getPaletteIndexAt` and `getPaletteColorAt` fail with `NoPalette` when
no palette chunk is present; with a palette present they fail with
`IndexOutOfRange` exactly when the raster value stored at the resolved
position is at or past the palette length, and otherwise `getPaletteIndexAt`
returns that stored index and `getPaletteColorAt` returns the palette entry at
it. -/
theorem claim_C7_palette_accessors (d : RnPngState) (pos : Pos) :
    (d.plte = none →
      d.getPaletteIndexAt pos = .error .noPalette
      ∧ d.getPaletteColorAt pos = .error .noPalette)
    ∧ (∀ p : PLTEState, d.plte = some p →
        ∀ s : Nat, d.idat.pixelData.get? (d.resolveIndex pos) = some s →
          (p.palette.length ≤ s →
            d.getPaletteIndexAt pos = .error .indexOutOfRange
            ∧ d.getPaletteColorAt pos = .error .indexOutOfRange)
          ∧ (s < p.palette.length →
            d.getPaletteIndexAt pos = .ok s
            ∧ d.getPaletteColorAt pos = .ok (p.palette.getD s []))) := by
  constructor
  · intro hnone
    constructor
    · simp only [RnPngState.getPaletteIndexAt, hnone]
    · simp only [RnPngState.getPaletteColorAt, hnone]
  · intro p hp s hs
    have hval : d.idat.getValueAt (d.resolveIndex pos) = some s := hs
    constructor
    · intro hge
      have hidxAt : d.getPaletteIndexAt pos = .error .indexOutOfRange := by
        simp only [RnPngState.getPaletteIndexAt, hp, hval, if_pos hge]
      exact ⟨hidxAt, by simp only [RnPngState.getPaletteColorAt, hp, hidxAt]⟩
    · intro hlt
      have hidxAt : d.getPaletteIndexAt pos = .ok s := by
        simp only [RnPngState.getPaletteIndexAt, hp, hval, if_neg (Nat.not_le.mpr hlt)]
      refine ⟨hidxAt, ?_⟩
      simp only [RnPngState.getPaletteColorAt, hp, hidxAt, PLTEState.getColorOf]
      rw [List.get?_eq_getElem?, List.getElem?_eq_getElem hlt]
      simp [List.getD_eq_getElem?_getD, List.getElem?_eq_getElem hlt]

/-- C7 witness: concrete palette-accessor runs — `NoPalette` on a document
without a palette chunk, `IndexOutOfRange` for a stored index past the palette
length, and successful index/color reads otherwise. -/
theorem claim_C7_witness :
    ({ c3Doc with plte := none }.getPaletteIndexAt (.idx 0) = .error .noPalette
      ∧ { c3Doc with plte := none }.getPaletteColorAt (.idx 0) = .error .noPalette)
    ∧ (c3Doc.getPaletteIndexAt (.idx 0) = .ok 0
      ∧ c3Doc.getPaletteColorAt (.idx 0) = .ok [10, 20, 30]) := by
  refine ⟨(claim_C7_palette_accessors { c3Doc with plte := none } (.idx 0)).1 rfl, ?_⟩
  have h := ((claim_C7_palette_accessors c3Doc (.idx 0)).2
    { maxNumberOfColors := 256, palette := [[10, 20, 30]] } rfl 0 rfl).2 (by decide)
  exact ⟨h.1, h.2⟩

/-- C9: with a palette chunk present and no background chunk, `setBackground`
only overwrites palette entry 0 with the supplied color — no `bKGD` chunk is
added, metadata, transparency and pixel data are untouched, every palette
entry other than index 0 is unchanged, and `getBackground` still returns
`undefined` (`none`). -/
theorem claim_C9_setBackground_palette_alias (d : RnPngState) (color : List Nat)
    (p : PLTEState) (hp : d.plte = some p) (hb : d.bkgd = none)
    (hne : 0 < p.palette.length) :
    ∃ d' : RnPngState,
      d.setBackground color = .ok d'
      ∧ d'.bkgd = none
      ∧ d'.getBackground = none
      ∧ d'.meta = d.meta ∧ d'.trns = d.trns ∧ d'.idat = d.idat
      ∧ ∃ p' : PLTEState, d'.plte = some p'
          ∧ p'.maxNumberOfColors = p.maxNumberOfColors
          ∧ p'.palette.length = p.palette.length
          ∧ p'.palette.get? 0 = some color
          ∧ ∀ i, 0 < i → p'.palette.get? i = p.palette.get? i := by
  have hstep : d.setBackground color = .ok { d with plte := some (p.setColorOf 0 color) } := by
    unfold RnPngState.setBackground
    rw [hp, hb]
  refine ⟨_, hstep, hb, ?_, rfl, rfl, rfl, p.setColorOf 0 color, rfl, rfl, ?_, ?_, ?_⟩
  · simp only [RnPngState.getBackground, hb, Option.map_none']
  · exact List.length_set p.palette 0 color ▸ rfl
  · rw [PLTEState.setColorOf]
    simp only [List.get?_eq_getElem?]
    exact List.getElem?_set_eq_of_lt color hne
  · intro i hi
    rw [PLTEState.setColorOf]
    simp only [List.get?_eq_getElem?]
    exact List.getElem?_set_ne (Nat.ne_of_lt hi)

/-- C9 witness: concrete run on the one-entry-palette indexed document. -/
theorem claim_C9_witness :
    ∃ d' : RnPngState,
      c3Doc.setBackground [7, 8, 9] = .ok d'
      ∧ d'.bkgd = none
      ∧ d'.getBackground = none
      ∧ d'.meta = c3Doc.meta ∧ d'.trns = c3Doc.trns ∧ d'.idat = c3Doc.idat
      ∧ ∃ p' : PLTEState, d'.plte = some p'
          ∧ p'.maxNumberOfColors = 256
          ∧ p'.palette.length = 1
          ∧ p'.palette.get? 0 = some [7, 8, 9]
          ∧ ∀ i, 0 < i → p'.palette.get? i = [[10, 20, 30]].get? i := by
  have h := claim_C9_setBackground_palette_alias c3Doc [7, 8, 9]
    { maxNumberOfColors := 256, palette := [[10, 20, 30]] } rfl rfl (by decide)
  exact h

/-- C6: `setPixelAt` fails with `InsufficientSamples` exactly when the
supplied data has fewer samples than the color type's required tuple length —
3 for indexed images, `determineFullPixelSize(colorType)` otherwise; when the
arity check passes, whatever else happens is never an `InsufficientSamples`
failure. -/
theorem claim_C6_insufficient_samples (d : RnPngState) (pos : Pos) (data : List Nat) :
    d.setPixelAt pos data = .error .insufficientSamples
      ↔ data.length
          < (if isIndexed d.meta.colorType then 3 else determineFullPixelSize d.meta.colorType) := by
  unfold RnPngState.setPixelAt
  by_cases h : data.length
      < (if isIndexed d.meta.colorType then 3 else determineFullPixelSize d.meta.colorType)
  · simp [if_pos h, h]
  · simp only [if_neg h]
    constructor
    · intro hres
      exfalso
      unfold RnPngState.removeTransparency at hres
      split at hres
      · simp at hres
      · split at hres
        · split at hres
          · simp at hres
          · split at hres
            next x e heq =>
              simp only [Except.error.injEq] at hres
              subst hres
              unfold PLTEState.addColor at heq
              split at heq
              · simp at heq
              · split at heq <;> simp_all
            next x i p' heq =>
              split at hres <;> simp_all
        · repeat' split at hres
          all_goals simp_all
    · intro hlt
      exact absurd hlt h

/-- Looking up a present color by `findIdx` over exact equality returns that
color. -/
lemma palette_get_findIdx (l : List (List Nat)) (a : List Nat) (h : a ∈ l) :
    l.get? (l.findIdx (fun c => c == a)) = some a := by
  have hex : ∃ x ∈ l, (fun c => c == a) x = true := ⟨a, h, by simp⟩
  have hlt : l.findIdx (fun c => c == a) < l.length := List.findIdx_lt_length_of_exists hex
  have hget := @List.findIdx_getElem _ (fun c => c == a) l hlt
  rw [List.get?_eq_getElem?, List.getElem?_eq_getElem hlt]
  simp only [Option.some.injEq]
  exact eq_of_beq hget

/-- C5: on an indexed image whose palette is not full, `setPixelAt` with a new
RGB color grows the palette by exactly one and stores palette index
`new length - 1` at the pixel, while `setPixelAt` with a color already in the
palette leaves the palette length unchanged and stores the index of the
existing entry. -/
theorem claim_C5_palette_growth (d : RnPngState) (pos : Pos) (data : List Nat)
    (hidx : isIndexed d.meta.colorType = true)
    (p : PLTEState) (hp : d.plte = some p)
    (hlen : data.length = 3)
    (hfull : p.palette.length < p.maxNumberOfColors)
    (hmax : p.maxNumberOfColors ≤ 256)
    (hpos : d.resolveIndex pos < d.idat.pixelData.length) :
    (data ∉ p.palette →
      ∃ (d' : RnPngState) (p' : PLTEState),
        d.setPixelAt pos data = .ok d'
        ∧ d'.plte = some p'
        ∧ p'.palette.length = p.palette.length + 1
        ∧ d'.idat.pixelData.get? (d.resolveIndex pos) = some (p'.palette.length - 1)
        ∧ p'.palette.get? (p'.palette.length - 1) = some data)
    ∧ (data ∈ p.palette →
      ∃ (d' : RnPngState) (p' : PLTEState),
        d.setPixelAt pos data = .ok d'
        ∧ d'.plte = some p'
        ∧ p'.palette.length = p.palette.length
        ∧ ∃ s : Nat, d'.idat.pixelData.get? (d.resolveIndex pos) = some s
            ∧ p.palette.get? s = some data) := by
  have hct : d.meta.colorType = ColorTypes.INDEXED := by simpa [isIndexed] using hidx
  have halpha : hasAlphaSample d.meta.colorType = false := by rw [hct]; rfl
  have hnotlt : ¬ data.length < (if isIndexed d.meta.colorType = true then 3
      else determineFullPixelSize d.meta.colorType) := by
    rw [if_pos hidx]; omega
  have htake4 : data.take (3 + 1) = data := List.take_of_length_le (by omega)
  have htake3 : data.take 3 = data := List.take_of_length_le (by omega)
  have hopac : ¬ (3 < data.length) := by omega
  constructor
  · intro hnew
    have hin : p.isColorInPalette data = false := by
      simp [PLTEState.isColorInPalette, hnew]
    have hadd : p.addColor data
        = .ok (p.palette.length, { p with palette := p.palette ++ [data] }) := by
      unfold PLTEState.addColor
      rw [if_neg (by omega)]
    refine ⟨⟨d.meta, some ⟨p.maxNumberOfColors, p.palette ++ [data]⟩, d.trns, d.bkgd,
        d.idat.setPixelOfValue (d.resolveIndex pos) p.palette.length⟩,
      ⟨p.maxNumberOfColors, p.palette ++ [data]⟩, ?_, rfl, by simp, ?_, ?_⟩
    · unfold RnPngState.setPixelAt
      rw [if_neg hnotlt]
      simp only [halpha, Bool.false_eq_true, if_false, hidx, if_true, htake4, htake3, hp,
        hin, hadd, if_neg hopac]
    · simp only [List.length_append, List.length_singleton, Nat.add_sub_cancel,
        IDATState.setPixelOfValue]
      rw [List.get?_eq_getElem?]
      rw [List.getElem?_set_eq_of_lt _ (by simpa using hpos)]
      have : clamp8 p.palette.length = p.palette.length := by
        unfold clamp8; omega
      rw [this]
    · simp only [List.length_append, List.length_singleton, Nat.add_sub_cancel]
      simp [List.get?_eq_getElem?, List.getElem?_concat_length]
  · intro hmem
    have hin : p.isColorInPalette data = true := by
      simp [PLTEState.isColorInPalette, hmem]
    have hfind : p.palette.findIdx (fun c => c == data) < p.palette.length :=
      List.findIdx_lt_length_of_exists ⟨data, hmem, by simp⟩
    refine ⟨⟨d.meta, some p, d.trns, d.bkgd,
        d.idat.setPixelOfValue (d.resolveIndex pos) (p.palette.findIdx (fun c => c == data))⟩,
      p, ?_, rfl, rfl, p.palette.findIdx (fun c => c == data), ?_, ?_⟩
    · unfold RnPngState.setPixelAt
      rw [if_neg hnotlt]
      simp only [halpha, Bool.false_eq_true, if_false, hidx, if_true, htake4, htake3, hp,
        hin, if_true, if_neg hopac, PLTEState.getPaletteIndex]
    · simp only [IDATState.setPixelOfValue, PLTEState.getPaletteIndex]
      rw [List.get?_eq_getElem?]
      rw [List.getElem?_set_eq_of_lt _ (by simpa using hpos)]
      have : clamp8 (p.palette.findIdx (fun c => c == data))
          = p.palette.findIdx (fun c => c == data) := by
        unfold clamp8; omega
      rw [this]
    · exact palette_get_findIdx p.palette data hmem

/-- C5 witness: writing the fresh color (255,0,0) into the empty-palette
indexed document grows the palette to length one and stores index 0. -/
theorem claim_C5_witness :
    ∃ (d' : RnPngState) (p' : PLTEState),
      c5Doc.setPixelAt (.xy 0 0) [255, 0, 0] = .ok d'
      ∧ d'.plte = some p'
      ∧ p'.palette.length = (mkPLTE 256).palette.length + 1
      ∧ d'.idat.pixelData.get? (c5Doc.resolveIndex (.xy 0 0)) = some (p'.palette.length - 1)
      ∧ p'.palette.get? (p'.palette.length - 1) = some [255, 0, 0] :=
  (claim_C5_palette_growth c5Doc (.xy 0 0) [255, 0, 0] rfl (mkPLTE 256) rfl rfl
    (by decide) (by decide) (by decide)).1 (by decide)

/-- Writing samples never changes the buffer length. -/
lemma writeBytes_length (buf : List Nat) (i : Nat) (vs : List Nat) :
    (writeBytes buf i vs).length = buf.length := by
  induction vs generalizing buf i with
  | nil => rfl
  | cons v rest ih => rw [writeBytes, ih, List.length_set]

/-- Positions below the write offset are untouched by `writeBytes`. -/
lemma writeBytes_get?_lt (buf : List Nat) (i : Nat) (vs : List Nat) (k : Nat) (hk : k < i) :
    (writeBytes buf i vs).get? k = buf.get? k := by
  induction vs generalizing buf i with
  | nil => rfl
  | cons v rest ih =>
    rw [writeBytes, ih _ _ (by omega)]
    simp only [List.get?_eq_getElem?]
    exact List.getElem?_set_ne (by omega)

/-- Reading back an in-bounds write returns the written (clamped) sample. -/
lemma writeBytes_get?_inside (buf : List Nat) (i : Nat) (vs : List Nat) (k : Nat)
    (hk : k < vs.length) (hin : i + vs.length ≤ buf.length) :
    (writeBytes buf i vs).get? (i + k) = some (clamp8 (vs.getD k 0)) := by
  induction vs generalizing buf i k with
  | nil => simp at hk
  | cons v rest ih =>
    cases k with
    | zero =>
      have hby : i < buf.length := by simp at hin; omega
      rw [writeBytes, writeBytes_get?_lt _ _ _ _ (by omega)]
      simp only [List.get?_eq_getElem?, Nat.add_zero]
      rw [List.getElem?_set_eq_of_lt _ hby]
      rfl
    | succ k' =>
      have hstep : i + (k' + 1) = (i + 1) + k' := by omega
      have hin' : (i + 1) + rest.length ≤ (buf.set i (clamp8 v)).length := by
        simp at hin ⊢
        omega
      rw [writeBytes, hstep, ih _ _ _ (by simpa using hk) hin']
      rfl

/-- A color key just inserted is a member of the transparency chunk's key
list. -/
lemma setTransparencyKey_mem (t : TRNSState) (color : List Nat) :
    color ∈ (t.setTransparencyKey color).colorKeys := by
  unfold TRNSState.setTransparencyKey
  by_cases h : color ∈ t.colorKeys
  · rw [if_pos h]; exact h
  · rw [if_neg h]; simp

/-- C8: on a grayscale or truecolor image (non-indexed, non-alpha),
`setPixelAt` with a tuple carrying one trailing opacity sample writes the
color samples into the pixel buffer, and then removes the existing color-key
transparency entry when the opacity is 255 and the color is registered, and in
every other case inserts a color-key entry for that color, creating the
transparency chunk when absent. -/
theorem claim_C8_colorkey_transparency (d : RnPngState) (pos : Pos)
    (data colorData : List Nat) (o : Nat)
    (hct : d.meta.colorType = ColorTypes.GRAYSCALE ∨ d.meta.colorType = ColorTypes.TRUECOLOR)
    (hdata : data = colorData ++ [o])
    (hclen : colorData.length = determineFullPixelSize d.meta.colorType) :
    ∃ d' : RnPngState,
      d.setPixelAt pos data = .ok d'
      ∧ (∀ k, k < colorData.length →
          d.resolveIndex pos + colorData.length ≤ d.idat.pixelData.length →
          d'.idat.pixelData.get? (d.resolveIndex pos + k) = some (clamp8 (colorData.getD k 0)))
      ∧ (o = 255 → d.doesColorExistInTransparencies colorData = true →
          ∃ t t' : TRNSState, d.trns = some t ∧ d'.trns = some t'
            ∧ t'.colorKeys = t.colorKeys.erase colorData)
      ∧ (¬ (o = 255 ∧ d.doesColorExistInTransparencies colorData = true) →
          ∃ t' : TRNSState, d'.trns = some t' ∧ colorData ∈ t'.colorKeys) := by
  have halpha : hasAlphaSample d.meta.colorType = false := by
    rcases hct with h | h <;> rw [h] <;> rfl
  have hidx : isIndexed d.meta.colorType = false := by
    rcases hct with h | h <;> rw [h] <;> rfl
  have hdlen : data.length = determineFullPixelSize d.meta.colorType + 1 := by
    rw [hdata]; simp [hclen]
  have hnotlt : ¬ data.length < (if isIndexed d.meta.colorType = true then 3
      else determineFullPixelSize d.meta.colorType) := by
    rw [hidx]
    simp only [Bool.false_eq_true, if_false]
    omega
  have htake1 : data.take (determineFullPixelSize d.meta.colorType + 1) = data :=
    List.take_of_length_le (by omega)
  have htakec : data.take (determineFullPixelSize d.meta.colorType) = colorData := by
    rw [hdata, ← hclen]
    exact List.take_left colorData [o]
  have hlast : data.getLast? = some o := by
    rw [hdata]
    exact List.getLast?_concat _
  have hopac : determineFullPixelSize d.meta.colorType < data.length := by omega
  -- the state after the raw pixel write
  have hwrite : ∀ (dd : RnPngState), dd = { d with
      idat := d.idat.setPixelOfList (d.resolveIndex pos) colorData } →
      ∀ k, k < colorData.length →
        d.resolveIndex pos + colorData.length ≤ d.idat.pixelData.length →
        dd.idat.pixelData.get? (d.resolveIndex pos + k) = some (clamp8 (colorData.getD k 0)) := by
    intro dd hdd k hk hin
    rw [hdd]
    exact writeBytes_get?_inside _ _ _ _ hk hin
  by_cases hbranch : o = 255 ∧ d.doesColorExistInTransparencies colorData = true
  · obtain ⟨ho, hexist⟩ := hbranch
    obtain ⟨t, ht⟩ : ∃ t, d.trns = some t := by
      unfold RnPngState.doesColorExistInTransparencies at hexist
      cases htr : d.trns with
      | none => rw [htr] at hexist; simp at hexist
      | some t => exact ⟨t, rfl⟩
    refine ⟨⟨d.meta, d.plte, some (t.removeTransparencyKey colorData), d.bkgd,
        d.idat.setPixelOfList (d.resolveIndex pos) colorData⟩, ?_, ?_, ?_, ?_⟩
    · unfold RnPngState.setPixelAt
      rw [if_neg hnotlt]
      simp only [halpha, Bool.false_eq_true, if_false, hidx, htake1, htakec, hlast,
        if_pos hopac]
      have hexist' : RnPngState.doesColorExistInTransparencies
          ⟨d.meta, d.plte, d.trns, d.bkgd,
            d.idat.setPixelOfList (d.resolveIndex pos) colorData⟩ colorData = true := hexist
      rw [if_pos ⟨ho, hexist'⟩]
      unfold RnPngState.removeTransparency
      simp only [ht, hidx, Bool.false_eq_true, if_false]
    · intro k hk hin
      exact writeBytes_get?_inside _ _ _ _ hk hin
    · intro _ _
      exact ⟨t, t.removeTransparencyKey colorData, ht, rfl, rfl⟩
    · intro hcontra
      exact absurd ⟨ho, hexist⟩ hcontra
  · refine ⟨⟨d.meta, d.plte,
        some (((d.trns.getD (mkTRNS d.meta.colorType))).setTransparencyKey colorData), d.bkgd,
        d.idat.setPixelOfList (d.resolveIndex pos) colorData⟩, ?_, ?_, ?_, ?_⟩
    · unfold RnPngState.setPixelAt
      rw [if_neg hnotlt]
      simp only [halpha, Bool.false_eq_true, if_false, hidx, htake1, htakec, hlast,
        if_pos hopac]
      have hbranch' : ¬ (o = 255 ∧ RnPngState.doesColorExistInTransparencies
          ⟨d.meta, d.plte, d.trns, d.bkgd,
            d.idat.setPixelOfList (d.resolveIndex pos) colorData⟩ colorData = true) := hbranch
      rw [if_neg hbranch']
      rfl
    · intro k hk hin
      exact writeBytes_get?_inside _ _ _ _ hk hin
    · intro ho hexist
      exact absurd ⟨ho, hexist⟩ hbranch
    · intro _
      exact ⟨_, rfl, setTransparencyKey_mem _ _⟩

/-- C8 witness: writing gray 7 with opacity 255 while 7 is registered as a
color key removes the color-key entry. -/
theorem claim_C8_witness :
    ∃ d' : RnPngState,
      c8Doc.setPixelAt (.idx 0) [7, 255] = .ok d'
      ∧ (∀ k, k < ([7] : List Nat).length →
          c8Doc.resolveIndex (.idx 0) + ([7] : List Nat).length
              ≤ c8Doc.idat.pixelData.length →
          d'.idat.pixelData.get? (c8Doc.resolveIndex (.idx 0) + k)
              = some (clamp8 (([7] : List Nat).getD k 0)))
      ∧ ((255 : Nat) = 255 → c8Doc.doesColorExistInTransparencies [7] = true →
          ∃ t t' : TRNSState, c8Doc.trns = some t ∧ d'.trns = some t'
            ∧ t'.colorKeys = t.colorKeys.erase [7])
      ∧ (¬ ((255 : Nat) = 255 ∧ c8Doc.doesColorExistInTransparencies [7] = true) →
          ∃ t' : TRNSState, d'.trns = some t' ∧ [7] ∈ t'.colorKeys) :=
  claim_C8_colorkey_transparency c8Doc (.idx 0) [7, 255] [7] 255 (Or.inl rfl) rfl rfl

/-- Appending one computed element per input element preserves counts. -/
lemma foldl_append_singleton_length (g : List Nat → Nat → Nat) (row : List Nat) (a : List Nat) :
    (row.foldl (fun acc raw => acc ++ [g acc raw]) a).length = a.length + row.length := by
  induction row generalizing a with
  | nil => simp
  | cons x xs ih => simp [ih]; omega

/-- Inverse-filtering a row preserves its length. -/
lemma defilterRow_length (ft fps : Nat) (prev row : List Nat) :
    (defilterRow ft fps prev row).length = row.length := by
  unfold defilterRow
  have := foldl_append_singleton_length
    (fun acc raw => defilterRowStep ft fps prev acc acc.length raw) row []
  simpa using this

/-- Length bookkeeping for the `defilter` fold: each processed row contributes
one full `rowBytes + 1` block. -/
lemma defilter_foldl_len (d : List Nat) (rb fps : Nat) :
    ∀ (m : Nat) (st : List Nat × List Nat), m * (rb + 1) ≤ d.length →
      (((List.range m).foldl
        (fun (st : List Nat × List Nat) y =>
          let chunk := (d.drop (y * (rb + 1))).take (rb + 1)
          let ft := chunk.headD 0
          let row := chunk.drop 1
          let recon := defilterRow ft fps st.1 row
          (recon, st.2 ++ (ft :: recon))) st).2).length
      = st.2.length + m * (rb + 1) := by
  intro m
  induction m with
  | zero => simp
  | succ k ih =>
    intro st hm
    have hexp : (k + 1) * (rb + 1) = k * (rb + 1) + (rb + 1) := by ring
    rw [List.range_succ, List.foldl_append, List.foldl_cons, List.foldl_nil]
    simp only [List.length_append, List.length_cons, defilterRow_length, List.length_drop,
      List.length_take]
    rw [ih st (by omega)]
    have hchunk : min (rb + 1) (d.length - k * (rb + 1)) = rb + 1 := by omega
    omega

/-- `defilter` preserves the length of its input. -/
lemma defilter_length (d : List Nat) (w fps : Nat) :
    (defilter d w fps).length = d.length := by
  unfold defilter
  simp only [List.length_append, List.length_drop]
  rw [defilter_foldl_len d (w * fps) fps (d.length / (w * fps + 1)) _
    (Nat.div_mul_le_self _ _)]
  have := Nat.div_mul_le_self d.length (w * fps + 1)
  simp
  omega

/-- Stripping filter bytes from `height` full rows yields `height * rowLength`
bytes. -/
lemma removeFilterFields_length (d : List Nat) (r h : Nat)
    (hlen : h * (r + 1) ≤ d.length) :
    (removeFilterFields d r h).length = h * r := by
  unfold removeFilterFields
  rw [List.length_flatMap]
  have hmap : (List.range h).map
      (List.length ∘ fun y => (d.drop (y * (r + 1) + 1)).take r)
      = (List.range h).map (fun _ => r) := by
    apply List.map_congr_left
    intro y hy
    have hy' : y < h := List.mem_range.mp hy
    simp only [Function.comp_apply, List.length_take, List.length_drop]
    have hstep : (y + 1) * (r + 1) ≤ d.length := by
      calc (y + 1) * (r + 1) ≤ h * (r + 1) := Nat.mul_le_mul_right _ (by omega)
        _ ≤ d.length := hlen
    have hexp : (y + 1) * (r + 1) = y * (r + 1) + 1 + r := by ring
    omega
  rw [hmap]
  simp [List.map_const', List.sum_replicate, smul_eq_mul]

/-- C4 counterexample: a freshly constructed 2-by-1 indexed depth-8 document
allocates a sample buffer of `(width * fullPixelSize + 1) * height = 3` bytes
(the pixel-and-filter size), not `width * height * samplesPerPixel = 2`. -/
theorem claim_C4_counterexample :
    ∃ d : RnPngState,
      mkRnPng { width := 2, height := 1, depth := 8, colorType := ColorTypes.INDEXED,
                compression := 0, filter := 0, interlace := 0 } = .ok d
      ∧ d.idat.pixelData.length = 3
      ∧ d.meta.width * d.meta.height * determineFullPixelSize d.meta.colorType = 2
      ∧ d.idat.pixelData.length
          ≠ d.meta.width * d.meta.height * determineFullPixelSize d.meta.colorType := by
  refine ⟨_, rfl, ?_, ?_, ?_⟩ <;> decide

/-- C4 amended: the sample buffer holds one byte per sample, but its length is
`(width * fullPixelSize + 1) * height` (the pixel-and-filter size, one extra
byte per scanline) right after construction; after a depth-8 `IDAT.load` whose
inflated stream covers all scanlines it is exactly
`width * height * samplesPerPixel`; and no pixel mutation ever changes the
buffer length. -/
theorem claim_C4_amended :
    (∀ (m : MetaData) (d : RnPngState), mkRnPng m = .ok d →
        d.idat.pixelData.length
          = (m.width * determineFullPixelSize m.colorType + 1) * m.height)
    ∧ (∀ (d d' : RnPngState) (pos : Pos) (data : List Nat),
        d.setPixelAt pos data = .ok d' →
        d'.idat.pixelData.length = d.idat.pixelData.length)
    ∧ (∀ (s : IDATState) (inflateFn : List Nat → List Nat) (abuf : List Nat),
        s.depth = 8 →
        s.height * (determineDataRowLength s.depth s.colorType s.width + 1)
            ≤ (inflateFn (abuf.drop 8)).length →
        (s.load inflateFn abuf).pixelData.length
          = s.width * s.height * determineFullPixelSize s.colorType) := by
  refine ⟨?_, ?_, ?_⟩
  · intro m d hmk
    unfold mkRnPng at hmk
    cases hcheck : applyMetaDataCheck m with
    | error e =>
      rw [hcheck] at hmk
      simp only [Bind.bind, Except.bind] at hmk
      exact absurd hmk (by simp)
    | ok u =>
      rw [hcheck] at hmk
      simp only [Bind.bind, Except.bind] at hmk
      injection hmk with hd
      subst hd
      simp [mkIDAT, IDATState.calculatePixelAndFilterSize]
  · intro d d' pos data hres
    unfold RnPngState.setPixelAt RnPngState.removeTransparency at hres
    by_cases harity : data.length < (if isIndexed d.meta.colorType = true then 3
        else determineFullPixelSize d.meta.colorType)
    · rw [if_pos harity] at hres
      simp at hres
    · rw [if_neg harity] at hres
      dsimp only [] at hres
      split at hres
      · injection hres with hok
        subst hok
        simp [IDATState.setPixelOfList, writeBytes_length]
      · split at hres
        · split at hres
          · simp at hres
          · split at hres
            · simp at hres
            · split at hres
              · injection hres with hok
                subst hok
                simp [IDATState.setPixelOfValue]
              · injection hres with hok
                subst hok
                simp [IDATState.setPixelOfValue, RnPngState.setTransparencyOf]
        · split at hres
          · injection hres with hok
            subst hok
            simp [IDATState.setPixelOfList, writeBytes_length]
          · split at hres
            · repeat' split at hres
              all_goals first
                | (injection hres with hok
                   subst hok
                   simp [IDATState.setPixelOfList, writeBytes_length,
                     RnPngState.setTransparencyOf, RnPngState.setTransparencyColorKey])
                | (subst hres
                   simp [IDATState.setPixelOfList, writeBytes_length,
                     RnPngState.setTransparencyOf, RnPngState.setTransparencyColorKey])
                | simp_all
            · injection hres with hok
              subst hok
              simp [IDATState.setPixelOfList, writeBytes_length,
                RnPngState.setTransparencyColorKey]
  · intro s inflateFn abuf hdepth hlen
    unfold IDATState.load
    simp only [hdepth]
    have hrow : determineDataRowLength 8 s.colorType s.width
        = s.width * determineFullPixelSize s.colorType := by
      unfold determineDataRowLength
      omega
    rw [hdepth] at hlen
    rw [hrow] at hlen ⊢
    by_cases hct : s.colorType = ColorTypes.INDEXED
    · rw [if_neg (by simp [hct])]
      simp only [List.length_map, unpackByteData, eq_self_iff_true, if_true]
      rw [removeFilterFields_length _ _ _ (by simpa using hlen)]
      ring
    · rw [if_pos ⟨by omega, hct⟩]
      simp only [List.length_map, unpackByteData, eq_self_iff_true, if_true]
      rw [removeFilterFields_length _ _ _ (by simp [defilter_length]; simpa using hlen)]
      ring

/-- C4 amended witness: concrete runs of all three parts — construction of
the 2-by-1 indexed document, a pixel write on it, and a depth-8 load. -/
theorem claim_C4_amended_witness :
    (mkRnPng { width := 2, height := 1, depth := 8, colorType := ColorTypes.INDEXED,
                compression := 0, filter := 0, interlace := 0 } = .ok c4Doc
      ∧ c4Doc.idat.pixelData.length
          = (2 * determineFullPixelSize ColorTypes.INDEXED + 1) * 1
      ∧ ∀ d2 : RnPngState, c4Doc.setPixelAt (.idx 0) [9, 9, 9] = .ok d2 →
          d2.idat.pixelData.length = c4Doc.idat.pixelData.length)
    ∧ (({ width := 1, height := 1, depth := 8, colorType := ColorTypes.GRAYSCALE,
          numberOfPixels := 1, pixelData := [] } : IDATState).load
            (fun _ => [0, 5]) []).pixelData.length
        = 1 * 1 * determineFullPixelSize ColorTypes.GRAYSCALE := by
  have hmk : mkRnPng { width := 2, height := 1, depth := 8, colorType := ColorTypes.INDEXED,
                       compression := 0, filter := 0, interlace := 0 } = .ok c4Doc := rfl
  refine ⟨⟨hmk, claim_C4_amended.1 _ c4Doc hmk,
    fun d2 h => claim_C4_amended.2.1 c4Doc d2 _ _ h⟩,
    claim_C4_amended.2.2 _ _ _ rfl (by decide)⟩

set_option maxRecDepth 10000 in
/-- C1 counterexample: the claim's assumption `inflate(deflate(b)) = b` does
not suffice for the round-trip.  `IDAT.load` passes `inflate` everything from
the chunk's data offset to the end of the PNG buffer — the deflated stream
plus zero padding, the chunk CRC and the IEND chunk — so a codec that is an
exact inverse but rejects trailing bytes satisfies the assumption yet loses
every pixel: the reloaded document returns `[]` instead of `[5]`. -/
theorem claim_C1_counterexample :
    (∀ b : List Nat, c1inflate (c1deflate b) = b)
    ∧ c1Doc.getPixelAt (.xy 0 0) = .ok [5]
    ∧ ∃ d' : RnPngState,
        RnPngState.fromBuffer freshRnPng c1inflate (c1Doc.getBuffer c1deflate) = .ok d'
        ∧ d'.meta = c1Doc.meta
        ∧ d'.getPixelAt (.xy 0 0) = .ok []
        ∧ d'.getPixelAt (.xy 0 0) ≠ c1Doc.getPixelAt (.xy 0 0) := by
  refine ⟨?_, rfl, ?_⟩
  · intro b
    simp [c1deflate, c1inflate]
  · refine ⟨_, rfl, rfl, rfl, ?_⟩
    intro h
    have h5 : c1Doc.getPixelAt (.xy 0 0) = .ok [5] := rfl
    rw [h5] at h
    have h0 : (Except.ok [] : Except PngError (List Nat)) = .ok [5] → False := by
      intro hh
      injection hh with hh2
      simp at hh2
    exact h0 h

lemma slice_append_left (a b : List Nat) (n k : Nat) (h : n + k ≤ a.length) :
    ((a ++ b).drop n).take k = (a.drop n).take k := by
  rw [List.drop_append_eq_append_drop]
  rw [List.take_append_of_le_length (by simp; omega)]

lemma slice_of_take (l : List Nat) (m i k : Nat) (h : i + k ≤ m) :
    ((l.take m).drop i).take k = (l.drop i).take k := by
  rcases Nat.le_total m l.length with hm | hm
  · conv_rhs => rw [← List.take_append_drop m l]
    rw [slice_append_left _ _ _ _ (by simp; omega)]
  · rw [List.take_of_length_le hm]

lemma get?_take_lt (l : List Nat) (m i : Nat) (h : i < m) :
    (l.take m).get? i = l.get? i := by
  simp [List.get?_eq_getElem?, List.getElem?_take, h]

lemma map_clamp8_id (l : List Nat) (h : ∀ b ∈ l, b < 256) :
    l.map clamp8 = l := by
  induction l with
  | nil => rfl
  | cons x xs ih =>
    have hx : x < 256 := h x (by simp)
    simp only [List.map_cons, List.cons.injEq]
    constructor
    · unfold clamp8; omega
    · exact ih (fun b hb => h b (by simp [hb]))

lemma range_flatMap_slice (B : Nat → List Nat) (L : Nat) :
    ∀ (h j : Nat), (∀ y, y < h → (B y).length = L) → j < h →
      (((List.range h).flatMap B).drop (j * L)).take L = B j := by
  intro h
  induction h generalizing B with
  | zero => intro j _ hj; omega
  | succ n ih =>
    intro j hB hj
    rw [List.range_succ_eq_map, List.flatMap_cons, List.flatMap_map]
    cases j with
    | zero =>
      simp only [Nat.zero_mul, List.drop_zero]
      rw [List.take_append_of_le_length (by rw [hB 0 (by omega)])]
      rw [List.take_of_length_le (by rw [hB 0 (by omega)])]
    | succ j' =>
      have hlen : (B 0).length = L := hB 0 (by omega)
      have hidx : (j' + 1) * L = (B 0).length + j' * L := by rw [hlen]; ring
      rw [hidx, List.drop_append]
      exact ih (fun y => B (Nat.succ y)) j' (fun y hy => hB (y + 1) (by omega)) (by omega)

lemma flatMap_join_take (d : List Nat) (r : Nat) :
    ∀ h : Nat, h * r ≤ d.length →
      (List.range h).flatMap (fun y => (d.drop (y * r)).take r) = d.take (h * r) := by
  intro h
  induction h with
  | zero => simp
  | succ n ih =>
    intro hlen
    have hexp : (n + 1) * r = n * r + r := by ring
    rw [List.range_succ, List.flatMap_append, ih (by omega), List.flatMap_cons,
      List.flatMap_nil, List.append_nil, hexp, List.take_add]

lemma u32BE_length (n : Nat) : (u32BE n).length = 4 := rfl

lemma getD_append_offset (a b : List Nat) (i : Nat) :
    (a ++ b).getD (a.length + i) 0 = b.getD i 0 := by
  rw [List.getD_append_right _ _ _ _ (by omega)]
  congr 1
  omega

lemma readU32BE_at (a b : List Nat) (n : Nat) (hn : n < 2 ^ 32) :
    readU32BE (a ++ (u32BE n ++ b)) a.length = n := by
  unfold readU32BE
  have h0 := getD_append_offset a (u32BE n ++ b) 0
  have h1 := getD_append_offset a (u32BE n ++ b) 1
  have h2 := getD_append_offset a (u32BE n ++ b) 2
  have h3 := getD_append_offset a (u32BE n ++ b) 3
  simp only [Nat.add_zero] at h0
  rw [h0, h1, h2, h3]
  unfold u32BE
  simp only [List.cons_append, List.getD_cons_zero, List.getD_cons_succ]
  omega

lemma getD_cons_at (a b : List Nat) (x : Nat) :
    (a ++ (x :: b)).getD a.length 0 = x := by
  have := getD_append_offset a (x :: b) 0
  simpa using this

lemma packVal_append (B : Nat) (g : List Nat) (s : Nat) :
    packVal B (g ++ [s]) = packVal B g * B + s % B := by
  unfold packVal
  rw [List.foldl_append]
  rfl

lemma packVal_lt (B : Nat) (hB : 0 < B) (g : List Nat) :
    packVal B g < B ^ g.length := by
  induction g using List.reverseRecOn with
  | nil => simp [packVal]
  | append_singleton g s ih =>
    rw [packVal_append]
    have hs : s % B < B := Nat.mod_lt _ hB
    have h3 : B ^ (g ++ [s]).length = B ^ g.length * B := by
      simp [pow_succ]
    have hpow : 1 ≤ B ^ g.length := Nat.one_le_pow _ _ hB
    rw [h3]
    have h2 : packVal B g * B ≤ (B ^ g.length - 1) * B := Nat.mul_le_mul_right _ (by omega)
    have h4 : (B ^ g.length - 1) * B = B ^ g.length * B - B := by
      rw [Nat.sub_mul, Nat.one_mul]
    have h5 : B ≤ B ^ g.length * B := Nat.le_mul_of_pos_left _ hpow
    omega

lemma val_digits (B : Nat) (hB : 0 < B) (g : List Nat) (hg : ∀ x ∈ g, x < B) :
    (List.range g.length).map
      (fun i => packVal B g / B ^ (g.length - 1 - i) % B) = g := by
  induction g using List.reverseRecOn with
  | nil => simp
  | append_singleton g s ih =>
    have hs : s < B := hg s (by simp)
    have hlen : (g ++ [s]).length = g.length + 1 := by simp
    rw [hlen, List.range_succ, List.map_append, List.map_cons, List.map_nil]
    have hlast : packVal B (g ++ [s]) / B ^ (g.length + 1 - 1 - g.length) % B = s := by
      have he : g.length + 1 - 1 - g.length = 0 := by omega
      rw [he, pow_zero, Nat.div_one, packVal_append, Nat.mod_eq_of_lt hs,
        Nat.mul_comm (packVal B g) B, Nat.mul_add_mod, Nat.mod_eq_of_lt hs]
    have hinit : (List.range g.length).map
        (fun i => packVal B (g ++ [s]) / B ^ (g.length + 1 - 1 - i) % B) = g := by
      have hcongr : ∀ i ∈ List.range g.length,
          packVal B (g ++ [s]) / B ^ (g.length + 1 - 1 - i) % B
            = packVal B g / B ^ (g.length - 1 - i) % B := by
        intro i hi
        have hi' : i < g.length := List.mem_range.mp hi
        have hexp : g.length + 1 - 1 - i = (g.length - 1 - i) + 1 := by omega
        rw [packVal_append, hexp, pow_succ, Nat.mul_comm (B ^ (g.length - 1 - i)) B,
          ← Nat.div_div_eq_div_mul, Nat.mul_comm (packVal B g) B,
          Nat.mul_add_div hB, Nat.div_eq_of_lt (Nat.mod_lt _ hB), Nat.add_zero]
      rw [List.map_congr_left hcongr]
      exact ih (fun x hx => hg x (by simp [hx]))
    rw [hlast, hinit]

lemma count_groups_of_dvd (per q : Nat) (hper : 0 < per) :
    (per * q + per - 1) / per = q := by
  have h1 : per * q + per - 1 = per * q + (per - 1) := by omega
  rw [h1, Nat.mul_add_div hper, Nat.div_eq_of_lt (by omega), Nat.add_zero]

lemma packByteData_eq_of_dvd (d : List Nat) (depth : Nat) (hd8 : depth ≠ 8)
    (hper : 0 < 8 / depth) (hdvd : (8 / depth) ∣ d.length) :
    packByteData d depth = (List.range (d.length / (8 / depth))).map
      (fun i => packVal (2 ^ depth) ((d.drop (i * (8 / depth))).take (8 / depth))) := by
  obtain ⟨q, hq⟩ := hdvd
  unfold packByteData
  rw [if_neg hd8]
  simp only []
  rw [hq, count_groups_of_dvd _ _ hper, Nat.mul_div_cancel_left _ hper]
  apply List.map_congr_left
  intro i hi
  have hi' : i < q := List.mem_range.mp hi
  have hglen : ((d.drop (i * (8 / depth))).take (8 / depth)).length = 8 / depth := by
    simp only [List.length_take, List.length_drop, hq]
    have : (i + 1) * (8 / depth) ≤ (8 / depth) * q := by
      rw [Nat.mul_comm (8 / depth) q]
      exact Nat.mul_le_mul_right _ (by omega)
    have hx : i * (8 / depth) + (8 / depth) ≤ (8 / depth) * q := by
      have he : (i + 1) * (8 / depth) = i * (8 / depth) + (8 / depth) := by ring
      omega
    omega
  rw [hglen, Nat.sub_self, Nat.mul_zero, pow_zero, Nat.mul_one]
  rfl

lemma unpack_pack_aligned (d : List Nat) (depth : Nat)
    (hdepth : depth = 1 ∨ depth = 2 ∨ depth = 4 ∨ depth = 8)
    (hb : ∀ x ∈ d, x < 2 ^ depth)
    (hdvd : (8 / depth) ∣ d.length) :
    unpackByteData (packByteData d depth) depth = d := by
  by_cases hd8 : depth = 8
  · subst hd8
    unfold unpackByteData packByteData
    rw [if_pos rfl, if_pos rfl]
  · have hper : 0 < 8 / depth := by
      rcases hdepth with h | h | h | h <;> subst h <;> decide
    obtain ⟨q, hq⟩ := hdvd
    rw [packByteData_eq_of_dvd d depth hd8 hper ⟨q, hq⟩]
    unfold unpackByteData
    rw [if_neg hd8]
    simp only []
    rw [List.flatMap_map]
    have hstep : ∀ i ∈ List.range (d.length / (8 / depth)),
        (List.range (8 / depth)).map
          (fun k => packVal (2 ^ depth) ((d.drop (i * (8 / depth))).take (8 / depth))
            / 2 ^ (depth * (8 / depth - 1 - k)) % 2 ^ depth)
        = (d.drop (i * (8 / depth))).take (8 / depth) := by
      intro i hi
      have hi' : i < d.length / (8 / depth) := List.mem_range.mp hi
      have hglen : ((d.drop (i * (8 / depth))).take (8 / depth)).length = 8 / depth := by
        simp only [List.length_take, List.length_drop, hq]
        have hid : i < q := by
          rw [hq, Nat.mul_comm, Nat.mul_div_cancel _ hper] at hi'
          exact hi'
        have hx : i * (8 / depth) + (8 / depth) ≤ (8 / depth) * q := by
          have he : (i + 1) * (8 / depth) = i * (8 / depth) + (8 / depth) := by ring
          have : (i + 1) * (8 / depth) ≤ q * (8 / depth) := Nat.mul_le_mul_right _ (by omega)
          rw [Nat.mul_comm q (8 / depth)] at this
          omega
        omega
      have hgb : ∀ x ∈ (d.drop (i * (8 / depth))).take (8 / depth), x < 2 ^ depth := by
        intro x hx
        exact hb x (List.mem_of_mem_drop (List.mem_of_mem_take hx))
      have hv := val_digits (2 ^ depth) (Nat.pos_pow_of_pos _ (by omega))
        ((d.drop (i * (8 / depth))).take (8 / depth)) hgb
      rw [hglen] at hv
      conv_rhs => rw [← hv]
      apply List.map_congr_left
      intro k _
      rw [← pow_mul]
    rw [List.flatMap_congr hstep]
    have hM : d.length / (8 / depth) * (8 / depth) = d.length := by
      rw [hq, Nat.mul_comm (8 / depth) q, Nat.mul_div_cancel _ hper]
    rw [flatMap_join_take d (8 / depth) (d.length / (8 / depth)) (by omega), hM,
      List.take_length]

lemma packByteData_lt_256 (d : List Nat) (depth : Nat)
    (hdepth : depth = 1 ∨ depth = 2 ∨ depth = 4 ∨ depth = 8)
    (hb : ∀ x ∈ d, x < 2 ^ depth) :
    ∀ y ∈ packByteData d depth, y < 256 := by
  by_cases hd8 : depth = 8
  · subst hd8
    unfold packByteData
    rw [if_pos rfl]
    exact hb
  · intro y hy
    unfold packByteData at hy
    rw [if_neg hd8] at hy
    simp only [List.mem_map] at hy
    obtain ⟨i, _, hyeq⟩ := hy
    set g := (d.drop (i * (8 / depth))).take (8 / depth) with hg
    have hglen : g.length ≤ 8 / depth := by
      rw [hg]
      simp [List.length_take]
    have hval : packVal (2 ^ depth) g < (2 ^ depth) ^ g.length :=
      packVal_lt _ (Nat.pos_pow_of_pos _ (by omega)) g
    have hdper : depth * (8 / depth) = 8 := by
      rcases hdepth with h | h | h | h <;> subst h <;> decide
    rw [← hyeq]
    show packVal (2 ^ depth) g * 2 ^ (depth * (8 / depth - g.length)) < 256
    calc packVal (2 ^ depth) g * 2 ^ (depth * (8 / depth - g.length))
        < (2 ^ depth) ^ g.length * 2 ^ (depth * (8 / depth - g.length)) := by
          exact (Nat.mul_lt_mul_right (Nat.pos_pow_of_pos _ (by omega))).mpr hval
      _ = 2 ^ (depth * g.length) * 2 ^ (depth * (8 / depth - g.length)) := by
          conv_lhs => rw [← pow_mul]
      _ = 2 ^ (depth * g.length + depth * (8 / depth - g.length)) := by
          rw [pow_add]
      _ = 2 ^ 8 := by
          congr 1
          rw [← Nat.mul_add]
          rw [Nat.add_sub_cancel' hglen]
          exact hdper
      _ ≤ 256 := by norm_num

lemma packByteData_take (d : List Nat) (depth k : Nat) (hd8 : depth ≠ 8)
    (hper : 0 < 8 / depth) (hk : (8 / depth) * k ≤ d.length) :
    (packByteData d depth).take k = packByteData (d.take ((8 / depth) * k)) depth := by
  unfold packByteData
  rw [if_neg hd8, if_neg hd8]
  simp only []
  have htklen : (d.take ((8 / depth) * k)).length = (8 / depth) * k := by
    simp [List.length_take]
    omega
  rw [htklen, count_groups_of_dvd _ _ hper]
  rw [← List.map_take, List.take_range]
  have hkM : min k ((d.length + (8 / depth) - 1) / (8 / depth)) = k := by
    have hkle : k ≤ d.length / (8 / depth) := by
      rw [Nat.le_div_iff_mul_le hper, Nat.mul_comm]
      exact hk
    have : d.length / (8 / depth) ≤ (d.length + (8 / depth) - 1) / (8 / depth) :=
      Nat.div_le_div_right (by omega)
    omega
  rw [hkM]
  apply List.map_congr_left
  intro i hi
  have hi' : i < k := List.mem_range.mp hi
  have hsl : ((d.take ((8 / depth) * k)).drop (i * (8 / depth))).take (8 / depth)
      = (d.drop (i * (8 / depth))).take (8 / depth) := by
    apply slice_of_take
    have he : (i + 1) * (8 / depth) = i * (8 / depth) + (8 / depth) := by ring
    have : (i + 1) * (8 / depth) ≤ k * (8 / depth) := Nat.mul_le_mul_right _ (by omega)
    rw [Nat.mul_comm k (8 / depth)] at this
    omega
  rw [hsl]

lemma addFilterFields_length (d : List Nat) (r h : Nat) (hlen : h * r ≤ d.length) :
    (addFilterFields d r h).length = h * (r + 1) := by
  unfold addFilterFields
  rw [List.length_flatMap]
  have hmap : (List.range h).map
      (List.length ∘ fun y => 0 :: ((d.drop (y * r)).take r))
      = (List.range h).map (fun _ => r + 1) := by
    apply List.map_congr_left
    intro y hy
    have hy' : y < h := List.mem_range.mp hy
    simp only [Function.comp_apply, List.length_cons, List.length_take, List.length_drop]
    have hstep : (y + 1) * r ≤ d.length := by
      calc (y + 1) * r ≤ h * r := Nat.mul_le_mul_right _ (by omega)
        _ ≤ d.length := hlen
    have hexp : (y + 1) * r = y * r + r := by ring
    omega
  rw [hmap]
  simp only [List.map_const', List.length_range, List.sum_replicate, smul_eq_mul]

lemma addFilter_block_slice (d : List Nat) (r h j : Nat) (hlen : h * r ≤ d.length)
    (hj : j < h) :
    ((addFilterFields d r h).drop (j * (r + 1))).take (r + 1)
      = 0 :: ((d.drop (j * r)).take r) := by
  unfold addFilterFields
  apply range_flatMap_slice
  · intro y hy
    simp only [List.length_cons, List.length_take, List.length_drop]
    have hstep : (y + 1) * r ≤ d.length := by
      calc (y + 1) * r ≤ h * r := Nat.mul_le_mul_right _ (by omega)
        _ ≤ d.length := hlen
    have hexp : (y + 1) * r = y * r + r := by ring
    omega
  · exact hj

lemma remove_add_filter (d : List Nat) (r h : Nat) (hlen : h * r ≤ d.length) :
    removeFilterFields (addFilterFields d r h) r h = d.take (h * r) := by
  unfold removeFilterFields
  have hrows : ∀ j ∈ List.range h,
      ((addFilterFields d r h).drop (j * (r + 1) + 1)).take r
        = (d.drop (j * r)).take r := by
    intro j hj
    have hj' : j < h := List.mem_range.mp hj
    have hblk := addFilter_block_slice d r h j hlen hj'
    have hx : (addFilterFields d r h).drop (j * (r + 1))
        = (0 :: ((d.drop (j * r)).take r))
          ++ ((addFilterFields d r h).drop (j * (r + 1))).drop (r + 1) := by
      conv_lhs => rw [← List.take_append_drop (r + 1)
        ((addFilterFields d r h).drop (j * (r + 1)))]
      rw [hblk]
    have hd1 : (addFilterFields d r h).drop (j * (r + 1) + 1)
        = ((addFilterFields d r h).drop (j * (r + 1))).drop 1 := by
      rw [List.drop_drop]
    rw [hd1, hx]
    simp only [List.cons_append, List.drop_succ_cons, List.drop_zero]
    have hrlen : ((d.drop (j * r)).take r).length = r := by
      simp only [List.length_take, List.length_drop]
      have hstep : (j + 1) * r ≤ d.length := by
        calc (j + 1) * r ≤ h * r := Nat.mul_le_mul_right _ (by omega)
          _ ≤ d.length := hlen
      have hexp : (j + 1) * r = j * r + r := by ring
      omega
    rw [List.take_append_of_le_length (by omega), List.take_of_length_le (by omega)]
  rw [List.flatMap_congr hrows]
  exact flatMap_join_take d r h hlen

lemma defilterRow_zero (fps : Nat) (prev row : List Nat) (hb : ∀ x ∈ row, x < 256) :
    defilterRow 0 fps prev row = row := by
  unfold defilterRow
  suffices hgen : ∀ acc : List Nat,
      row.foldl (fun acc raw => acc ++ [defilterRowStep 0 fps prev acc acc.length raw]) acc
        = acc ++ row by
    simpa using hgen []
  induction row with
  | nil => intro acc; simp
  | cons x xs ih =>
    intro acc
    have hx : x < 256 := hb x (by simp)
    have hstep : defilterRowStep 0 fps prev acc acc.length x = x := by
      unfold defilterRowStep
      simp only []
      omega
    rw [List.foldl_cons, hstep]
    rw [ih (fun b hbm => hb b (by simp [hbm])) (acc ++ [x])]
    simp

lemma defilter_add_zero (dd : List Nat) (w fps h : Nat)
    (hlen : h * (w * fps) ≤ dd.length) (hb : ∀ x ∈ dd, x < 256) :
    defilter (addFilterFields dd (w * fps) h) w fps
      = addFilterFields dd (w * fps) h := by
  set r := w * fps with hr
  set A := addFilterFields dd r h with hA
  have hAlen : A.length = h * (r + 1) := addFilterFields_length dd r h hlen
  have hn : A.length / (r + 1) = h := by
    rw [hAlen, Nat.mul_div_cancel _ (by omega)]
  unfold defilter
  dsimp only []
  rw [hn]
  have hfold : ∀ m : Nat, m ≤ h →
      ((List.range m).foldl
        (fun (st : List Nat × List Nat) y =>
          let chunk := (A.drop (y * (r + 1))).take (r + 1)
          let ft := chunk.headD 0
          let row := chunk.drop 1
          let recon := defilterRow ft fps st.1 row
          (recon, st.2 ++ (ft :: recon)))
        (List.replicate r 0, [])).2 = A.take (m * (r + 1)) := by
    intro m
    induction m with
    | zero => intro _; simp
    | succ k ih =>
      intro hm
      rw [List.range_succ, List.foldl_append, List.foldl_cons, List.foldl_nil]
      have hchunk : (A.drop (k * (r + 1))).take (r + 1)
          = 0 :: ((dd.drop (k * r)).take r) :=
        addFilter_block_slice dd r h k hlen (by omega)
      have hrowb : ∀ x ∈ (dd.drop (k * r)).take r, x < 256 := by
        intro x hx
        exact hb x (List.mem_of_mem_drop (List.mem_of_mem_take hx))
      simp only [hchunk, List.headD_cons, List.drop_succ_cons, List.drop_zero]
      rw [defilterRow_zero fps _ _ hrowb]
      rw [ih (by omega)]
      have hexp : (k + 1) * (r + 1) = k * (r + 1) + (r + 1) := by ring
      rw [hexp, List.take_add]
      congr 1
      rw [← hchunk]
  rw [hfold h le_rfl]
  have haux : h * (w * fps + 1) = h * (r + 1) := by rw [hr]
  rw [List.take_of_length_le (by omega), List.drop_eq_nil_of_le (by omega),
    List.append_nil]

lemma parseIHDR_roundtrip (m : MetaData) (rest : List Nat)
    (hw : m.width < 2 ^ 32) (hh : m.height < 2 ^ 32) :
    parseIHDR (ihdrBuffer m ++ rest) = m := by
  obtain ⟨w, h, dep, ct, cp, f, i⟩ := m
  simp only [] at hw hh
  simp only [parseIHDR, ihdrBuffer, chunkWrap, u32BE, seqIHDR, readUint8At, readU32BE,
    List.cons_append, List.nil_append, List.getD_cons_zero, List.getD_cons_succ,
    MetaData.mk.injEq]
  and_intros <;> first
    | omega
    | trivial

lemma flatten_length_triples (L : List (List Nat)) (h3 : ∀ c ∈ L, c.length = 3) :
    L.flatten.length = 3 * L.length := by
  induction L with
  | nil => simp
  | cons c L' ih =>
    simp only [List.flatten_cons, List.length_append, List.length_cons]
    rw [h3 c (by simp), ih (fun x hx => h3 x (by simp [hx]))]
    ring

lemma flatten_parse_triples (L : List (List Nat)) :
    ∀ (j : Nat) (rest : List Nat), (∀ c ∈ L, c.length = 3) → j < L.length →
      ((L.flatten ++ rest).drop (3 * j)).take 3 = L.getD j [] := by
  induction L with
  | nil => intro j rest _ hj; simp at hj
  | cons c L' ih =>
    intro j rest h3 hj
    have hc3 : c.length = 3 := h3 c (by simp)
    cases j with
    | zero =>
      simp only [Nat.mul_zero, List.drop_zero, List.flatten_cons, List.cons_append,
        List.getD_cons_zero]
      rw [List.append_assoc, List.take_append_of_le_length (by omega)]
      exact List.take_of_length_le (by omega)
    | succ j' =>
      have hstep : 3 * (j' + 1) = c.length + 3 * j' := by omega
      simp only [List.flatten_cons, List.getD_cons_succ]
      rw [List.append_assoc, hstep, List.drop_append]
      exact ih j' rest (fun x hx => h3 x (by simp [hx])) (by simpa using hj)

lemma map_range_getD (L : List (List Nat)) :
    (List.range L.length).map (fun j => L.getD j []) = L := by
  induction L with
  | nil => simp
  | cons c L' ih =>
    rw [List.length_cons, List.range_succ_eq_map, List.map_cons, List.map_map]
    simp only [List.getD_cons_zero, Function.comp]
    congr 1

lemma readU32BE_head (b : List Nat) (n : Nat) (hn : n < 2 ^ 32) :
    readU32BE (u32BE n ++ b) 0 = n := by
  have := readU32BE_at [] (u32BE n ++ b) n hn
  simpa using this

lemma PLTE_load_roundtrip (p0 : PLTEState) (p : PLTEState) (rest : List Nat)
    (h3 : ∀ c ∈ p.palette, c.length = 3)
    (hsz : p.palette.flatten.length < 2 ^ 32) :
    PLTE_load p0 (plteBuffer p ++ rest) = { p0 with palette := p.palette } := by
  unfold PLTE_load plteBuffer chunkWrap
  have hflat : p.palette.flatten.length = 3 * p.palette.length :=
    flatten_length_triples p.palette h3
  have hread : readU32BE ((u32BE p.palette.flatten.length
      ++ (seqPLTE ++ (p.palette.flatten ++ u32BE (crc32 (seqPLTE ++ p.palette.flatten)))))
      ++ rest) 0 = p.palette.flatten.length := by
    rw [List.append_assoc]
    exact readU32BE_head _ _ hsz
  simp only [List.append_assoc] at hread ⊢
  rw [hread, hflat, Nat.mul_div_cancel_left _ (by omega)]
  have hpref : ∀ j : Nat, j < p.palette.length →
      (((u32BE (3 * p.palette.length) ++ (seqPLTE ++ (p.palette.flatten
        ++ (u32BE (crc32 (seqPLTE ++ p.palette.flatten)) ++ rest))))).drop (8 + 3 * j)).take 3
      = p.palette.getD j [] := by
    intro j hj
    have hassoc : u32BE (3 * p.palette.length) ++ (seqPLTE ++ (p.palette.flatten
        ++ (u32BE (crc32 (seqPLTE ++ p.palette.flatten)) ++ rest)))
        = (u32BE (3 * p.palette.length) ++ seqPLTE) ++ (p.palette.flatten
          ++ (u32BE (crc32 (seqPLTE ++ p.palette.flatten)) ++ rest)) := by
      simp [List.append_assoc]
    rw [hassoc]
    have hlen8 : (u32BE (3 * p.palette.length) ++ seqPLTE).length = 8 := rfl
    have hdrop : ((u32BE (3 * p.palette.length) ++ seqPLTE) ++ (p.palette.flatten
        ++ (u32BE (crc32 (seqPLTE ++ p.palette.flatten)) ++ rest))).drop (8 + 3 * j)
        = (p.palette.flatten
          ++ (u32BE (crc32 (seqPLTE ++ p.palette.flatten)) ++ rest)).drop (3 * j) := by
      rw [← hlen8, List.drop_append]
    rw [hdrop]
    exact flatten_parse_triples p.palette j _ h3 hj
  have hcongr : (List.range p.palette.length).map
      (fun j => ((u32BE (3 * p.palette.length) ++ (seqPLTE ++ (p.palette.flatten
        ++ (u32BE (crc32 (seqPLTE ++ p.palette.flatten)) ++ rest)))).drop (8 + 3 * j)).take 3)
      = (List.range p.palette.length).map (fun j => p.palette.getD j []) := by
    apply List.map_congr_left
    intro j hj
    exact hpref j (List.mem_range.mp hj)
  rw [hcongr, map_range_getD]

lemma TRNS_load_indexed_roundtrip (ct : Nat) (hct : isIndexed ct = true)
    (t : TRNSState) (hctt : t.colorType = ct) (rest : List Nat)
    (hlen : t.alphas.length < 2 ^ 32) :
    TRNS_load (mkTRNS ct) (trnsBuffer t ++ rest)
      = { colorType := ct, alphas := t.alphas, colorKeys := [] } := by
  unfold TRNS_load trnsBuffer chunkWrap mkTRNS
  rw [hctt]
  simp only [hct, if_true]
  have hread : readU32BE ((u32BE t.alphas.length ++ (seqtRNS ++ (t.alphas
      ++ u32BE (crc32 (seqtRNS ++ t.alphas))))) ++ rest) 0 = t.alphas.length := by
    rw [List.append_assoc]
    exact readU32BE_head _ _ hlen
  simp only [List.append_assoc] at hread ⊢
  rw [hread]
  have hlen8 : (u32BE t.alphas.length ++ seqtRNS).length = 8 := rfl
  have hassoc : u32BE t.alphas.length ++ (seqtRNS ++ (t.alphas
      ++ (u32BE (crc32 (seqtRNS ++ t.alphas)) ++ rest)))
      = (u32BE t.alphas.length ++ seqtRNS) ++ (t.alphas
        ++ (u32BE (crc32 (seqtRNS ++ t.alphas)) ++ rest)) := by
    simp [List.append_assoc]
  rw [hassoc]
  have hdrop : ((u32BE t.alphas.length ++ seqtRNS) ++ (t.alphas
      ++ (u32BE (crc32 (seqtRNS ++ t.alphas)) ++ rest))).drop 8
      = t.alphas ++ (u32BE (crc32 (seqtRNS ++ t.alphas)) ++ rest) := by
    have h0 : (8 : Nat) = (u32BE t.alphas.length ++ seqtRNS).length + 0 := by rw [hlen8]
    rw [h0, List.drop_append, List.drop_zero]
  rw [hdrop, List.take_append_of_le_length (by omega), List.take_of_length_le (by omega)]

lemma bKGD_load_v2_isOk (ct : Nat) (abuf : List Nat) :
    ∃ b' : BKGDState, bKGD_load_v2 (mkBKGD ct) abuf = .ok b' := by
  unfold bKGD_load_v2 BKGDState.setBackgroundColor mkBKGD
  by_cases hct : isIndexed ct = true
  · have hone : determineBackgroundSamplesPerEntry ct = 1 := by
      have : ct = 3 := by simpa [isIndexed] using hct
      rw [this]
      rfl
    simp [hct, hone]
  · simp only [Bool.not_eq_true] at hct
    simp [hct]

lemma addFilter_mem (d : List Nat) (r h : Nat) :
    ∀ x ∈ addFilterFields d r h, x = 0 ∨ x ∈ d := by
  intro x hx
  unfold addFilterFields at hx
  simp only [List.mem_flatMap, List.mem_range] at hx
  obtain ⟨y, _, hy⟩ := hx
  rcases List.mem_cons.mp hy with h0 | hmem
  · exact Or.inl h0
  · exact Or.inr (List.mem_of_mem_drop (List.mem_of_mem_take hmem))

lemma pow_depth_le_256 (depth : Nat)
    (hdepth : depth = 1 ∨ depth = 2 ∨ depth = 4 ∨ depth = 8) :
    2 ^ depth ≤ 256 := by
  rcases hdepth with h | h | h | h <;> subst h <;> decide

lemma IDATState.filteredData_eq (s : IDATState)
    (hdepth : s.depth = 1 ∨ s.depth = 2 ∨ s.depth = 4 ∨ s.depth = 8)
    (hbytes : ∀ x ∈ s.pixelData, x < 2 ^ s.depth) :
    s.filteredData = addFilterFields (packByteData s.pixelData s.depth)
      (determineDataRowLength s.depth s.colorType s.width) s.height := by
  unfold IDATState.filteredData
  have hpack : ∀ y ∈ packByteData s.pixelData s.depth, y < 256 :=
    packByteData_lt_256 s.pixelData s.depth hdepth hbytes
  rw [map_clamp8_id _ hpack]
  apply map_clamp8_id
  intro x hx
  rcases addFilter_mem _ _ _ x hx with h0 | hmem
  · omega
  · exact hpack x hmem

lemma idat_drop8 (s : IDATState) (deflateFn : List Nat → List Nat) (rest : List Nat)
    (hfit : (deflateFn s.filteredData).length ≤ s.calculatePayloadSize) :
    ∃ t : List Nat,
      (idatBuffer s deflateFn ++ rest).drop 8 = deflateFn s.filteredData ++ t := by
  unfold idatBuffer
  dsimp only []
  rw [List.take_of_length_le hfit]
  refine ⟨List.replicate (s.calculatePayloadSize - (deflateFn s.filteredData).length) 0
    ++ (u32BE (crc32 (seqIDAT ++ (deflateFn s.filteredData
      ++ List.replicate (s.calculatePayloadSize - (deflateFn s.filteredData).length) 0)))
      ++ rest), ?_⟩
  have hlen8 : (u32BE s.calculatePayloadSize ++ seqIDAT).length = 8 := rfl
  have hassoc : (u32BE s.calculatePayloadSize ++ seqIDAT
        ++ (deflateFn s.filteredData
          ++ List.replicate (s.calculatePayloadSize - (deflateFn s.filteredData).length) 0)
        ++ u32BE (crc32 (seqIDAT ++ (deflateFn s.filteredData
            ++ List.replicate (s.calculatePayloadSize
              - (deflateFn s.filteredData).length) 0)))) ++ rest
      = (u32BE s.calculatePayloadSize ++ seqIDAT) ++ (deflateFn s.filteredData
        ++ (List.replicate (s.calculatePayloadSize - (deflateFn s.filteredData).length) 0
          ++ (u32BE (crc32 (seqIDAT ++ (deflateFn s.filteredData
            ++ List.replicate (s.calculatePayloadSize
              - (deflateFn s.filteredData).length) 0))) ++ rest))) := by
    simp [List.append_assoc]
  rw [hassoc]
  have h0 : (8 : Nat) = (u32BE s.calculatePayloadSize ++ seqIDAT).length + 0 := by
    rw [hlen8]
  rw [h0, List.drop_append, List.drop_zero]

lemma unpack_remove_add_pack (pd : List Nat) (depth rlen h P : Nat)
    (hdepth : depth = 1 ∨ depth = 2 ∨ depth = 4 ∨ depth = 8)
    (hb : ∀ x ∈ pd, x < 2 ^ depth)
    (halign : (8 / depth) ∣ P)
    (hrlen : rlen = (P * depth + 7) / 8)
    (hlen : h * P + h ≤ pd.length) :
    (unpackByteData
      ((removeFilterFields (addFilterFields (packByteData pd depth) rlen h) rlen h).map
        clamp8) depth).map clamp8
      = pd.take (h * P) := by
  have h256 : ∀ x ∈ pd, x < 256 := by
    intro x hx
    have h1 := hb x hx
    have h2 := pow_depth_le_256 depth hdepth
    omega
  have htb : ∀ b ∈ pd.take (h * P), b < 256 :=
    fun b hbm => h256 b (List.mem_of_mem_take hbm)
  by_cases hd8 : depth = 8
  · subst hd8
    have hpk : packByteData pd 8 = pd := by simp [packByteData]
    have hup : ∀ l : List Nat, unpackByteData l 8 = l := by
      intro l; simp [unpackByteData]
    have hr : rlen = P := by omega
    rw [hr, hpk, remove_add_filter pd P h (by omega), map_clamp8_id _ htb, hup,
      map_clamp8_id _ htb]
  · have hper : 0 < 8 / depth := by
      rcases hdepth with h' | h' | h' | h' <;> subst h' <;> decide
    have hdper : depth * (8 / depth) = 8 := by
      rcases hdepth with h' | h' | h' | h' <;> subst h' <;> decide
    obtain ⟨Q, hQ⟩ := halign
    have h8Q : P * depth = 8 * Q := by
      rw [hQ]
      calc 8 / depth * Q * depth = depth * (8 / depth) * Q := by ring
        _ = 8 * Q := by rw [hdper]
    have hr : rlen = Q := by rw [hrlen, h8Q]; omega
    rw [hr]
    have hHQper : h * Q * (8 / depth) = h * P := by rw [hQ]; ring
    have hpacklen : (packByteData pd depth).length
        = (pd.length + 8 / depth - 1) / (8 / depth) := by
      unfold packByteData
      rw [if_neg hd8]
      simp
    have hremlen : h * Q ≤ (packByteData pd depth).length := by
      rw [hpacklen]
      have h1 : h * Q ≤ pd.length / (8 / depth) := by
        rw [Nat.le_div_iff_mul_le hper]
        omega
      have h2 : pd.length / (8 / depth) ≤ (pd.length + 8 / depth - 1) / (8 / depth) :=
        Nat.div_le_div_right (by omega)
      omega
    rw [remove_add_filter _ Q h hremlen]
    have hpk256 := packByteData_lt_256 pd depth hdepth hb
    rw [map_clamp8_id _ (fun b hbm => hpk256 b (List.mem_of_mem_take hbm))]
    have hk' : 8 / depth * (h * Q) = h * P := by rw [hQ]; ring
    rw [packByteData_take pd depth (h * Q) hd8 hper (by omega)]
    rw [unpack_pack_aligned (pd.take (8 / depth * (h * Q))) depth hdepth
      (fun x hx => hb x (List.mem_of_mem_take hx))
      ⟨h * Q, by simp only [List.length_take]; omega⟩]
    rw [hk', map_clamp8_id _ htb]

lemma IDAT_load_roundtrip (sW sR : IDATState)
    (inflateFn deflateFn : List Nat → List Nat) (rest : List Nat)
    (heqw : sR.width = sW.width) (heqh : sR.height = sW.height)
    (heqd : sR.depth = sW.depth) (heqc : sR.colorType = sW.colorType)
    (hdepth : sW.depth = 1 ∨ sW.depth = 2 ∨ sW.depth = 4 ∨ sW.depth = 8)
    (hbytes : ∀ x ∈ sW.pixelData, x < 2 ^ sW.depth)
    (halign : (8 / sW.depth) ∣ sW.width * determineFullPixelSize sW.colorType)
    (hplen : (sW.width * determineFullPixelSize sW.colorType + 1) * sW.height
      ≤ sW.pixelData.length)
    (hcodec : ∀ b t, inflateFn (deflateFn b ++ t) = b)
    (hfit : (deflateFn sW.filteredData).length ≤ sW.calculatePayloadSize) :
    (sR.load inflateFn (idatBuffer sW deflateFn ++ rest)).pixelData
      = sW.pixelData.take
          (sW.height * (sW.width * determineFullPixelSize sW.colorType)) := by
  obtain ⟨t, ht⟩ := idat_drop8 sW deflateFn rest hfit
  have hfd := IDATState.filteredData_eq sW hdepth hbytes
  have hexp : (sW.width * determineFullPixelSize sW.colorType + 1) * sW.height
      = sW.height * (sW.width * determineFullPixelSize sW.colorType) + sW.height := by
    ring
  have hlen2 : sW.height * (sW.width * determineFullPixelSize sW.colorType) + sW.height
      ≤ sW.pixelData.length := by omega
  unfold IDATState.load
  dsimp only []
  rw [heqw, heqh, heqd, heqc, ht, hcodec, hfd]
  have hfpseq : determinePixelColorSize sW.colorType
      + (if hasAlphaSample sW.colorType then 1 else 0)
      = determineFullPixelSize sW.colorType := rfl
  rw [hfpseq]
  by_cases hcond : 8 ≤ sW.depth ∧ sW.colorType ≠ ColorTypes.INDEXED
  · rw [if_pos hcond]
    have hd8 : sW.depth = 8 := by rcases hdepth with h | h | h | h <;> omega
    have hrl : determineDataRowLength sW.depth sW.colorType sW.width
        = sW.width * determineFullPixelSize sW.colorType := by
      unfold determineDataRowLength
      rw [hd8]
      omega
    have hpk : packByteData sW.pixelData sW.depth = sW.pixelData := by
      rw [hd8]; simp [packByteData]
    have hb256 : ∀ x ∈ packByteData sW.pixelData sW.depth, x < 256 :=
      packByteData_lt_256 _ _ hdepth hbytes
    have hlenp : sW.height * (sW.width * determineFullPixelSize sW.colorType)
        ≤ (packByteData sW.pixelData sW.depth).length := by
      rw [hpk]; omega
    rw [hrl]
    rw [defilter_add_zero (packByteData sW.pixelData sW.depth) sW.width
      (determineFullPixelSize sW.colorType) sW.height hlenp hb256]
    exact unpack_remove_add_pack sW.pixelData sW.depth
      (sW.width * determineFullPixelSize sW.colorType) sW.height
      (sW.width * determineFullPixelSize sW.colorType) hdepth hbytes halign
      (by rw [hd8]; omega) (by omega)
  · rw [if_neg hcond]
    exact unpack_remove_add_pack sW.pixelData sW.depth
      (determineDataRowLength sW.depth sW.colorType sW.width) sW.height
      (sW.width * determineFullPixelSize sW.colorType) hdepth hbytes halign
      (by unfold determineDataRowLength; rfl) (by omega)

lemma getPixelAt_take_congr (m : MetaData) (pO pN : Option PLTEState)
    (tO tN : Option TRNSState) (bO bN : Option BKGDState)
    (sO sN : IDATState) (x y : Nat)
    (hxw : x < m.width) (hyh : y < m.height)
    (hctN : sN.colorType = m.colorType) (hctO : sO.colorType = m.colorType)
    (hpd : sN.pixelData = sO.pixelData.take
      (m.height * (m.width * determineFullPixelSize m.colorType)))
    (hpal : Option.map PLTEState.palette pN = Option.map PLTEState.palette pO)
    (halph : isIndexed m.colorType = true →
      Option.map TRNSState.alphas tN = Option.map TRNSState.alphas tO) :
    RnPngState.getPixelAt ⟨m, pN, tN, bN, sN⟩ (.xy x y)
      = RnPngState.getPixelAt ⟨m, pO, tO, bO, sO⟩ (.xy x y) := by
  have h1 : (x + 1) * determineFullPixelSize m.colorType
      ≤ m.width * determineFullPixelSize m.colorType :=
    Nat.mul_le_mul_right _ (by omega)
  have h2 : (y + 1) * (m.width * determineFullPixelSize m.colorType)
      ≤ m.height * (m.width * determineFullPixelSize m.colorType) :=
    Nat.mul_le_mul_right _ (by omega)
  have he1 : (x + 1) * determineFullPixelSize m.colorType
      = x * determineFullPixelSize m.colorType + determineFullPixelSize m.colorType := by
    ring
  have he2 : (y + 1) * (m.width * determineFullPixelSize m.colorType)
      = y * (m.width * determineFullPixelSize m.colorType)
        + m.width * determineFullPixelSize m.colorType := by
    ring
  have hidx : y * (m.width * determineFullPixelSize m.colorType)
        + x * determineFullPixelSize m.colorType + determineFullPixelSize m.colorType
      ≤ m.height * (m.width * determineFullPixelSize m.colorType) := by
    omega
  have hpix : sN.getPixelOf (y * (m.width * determineFullPixelSize m.colorType)
        + x * determineFullPixelSize m.colorType)
      = sO.getPixelOf (y * (m.width * determineFullPixelSize m.colorType)
        + x * determineFullPixelSize m.colorType) := by
    unfold IDATState.getPixelOf
    rw [hpd, hctN, hctO, slice_of_take _ _ _ _ (by omega)]
  unfold RnPngState.getPixelAt RnPngState.resolveIndex RnPngState.translateXyToIndex
  dsimp only []
  rw [hpix]
  by_cases ha : hasAlphaSample m.colorType = true
  · simp only [ha, if_true]
  · simp only [Bool.not_eq_true] at ha
    simp only [ha, Bool.false_eq_true, if_false]
    by_cases hi : isIndexed m.colorType = true
    · simp only [hi, if_true]
      rcases hO : sO.getPixelOf (y * (m.width * determineFullPixelSize m.colorType)
          + x * determineFullPixelSize m.colorType) with - | ⟨pi, rest⟩
      · rfl
      rcases rest with - | ⟨r2, rest2⟩
      · rcases pO with - | p
        · rcases pN with - | p'
          · rfl
          · simp [Option.map] at hpal
        · rcases pN with - | p'
          · simp [Option.map] at hpal
          · simp only [Option.map] at hpal
            have hpp : p'.palette = p.palette := by
              injection hpal
            dsimp only []
            rw [hpp]
            rcases hget : p.palette.get? pi with - | color
            · rfl
            · dsimp only []
              have halph' := halph hi
              rcases tO with - | t
              · rcases tN with - | t'
                · rfl
                · simp [Option.map] at halph'
              · rcases tN with - | t'
                · simp [Option.map] at halph'
                · simp only [Option.map] at halph'
                  have htt : t'.alphas = t.alphas := by
                    injection halph'
                  dsimp only []
                  unfold TRNSState.getValueOf
                  rw [htt]
      · rfl
    · simp only [Bool.not_eq_true] at hi
      simp only [hi, Bool.false_eq_true, if_false]

lemma metaCheck_depth (m : MetaData) (h : applyMetaDataCheck m = .ok ()) :
    m.depth = 1 ∨ m.depth = 2 ∨ m.depth = 4 ∨ m.depth = 8 := by
  unfold applyMetaDataCheck at h
  split at h
  · cases h
  next hc =>
    omega

lemma drop_at_prefix (a b : List Nat) (n : Nat) (h : n = a.length) :
    (a ++ b).drop n = b := by
  subst h
  simp

lemma fromStepIHDR_eq (d : RnPngState) (buf : List Nat) (m : MetaData) (R : List Nat)
    (hscan : indexOfSequence buf seqIHDR 0 = some 12)
    (hdrop : buf.drop 8 = ihdrBuffer m ++ R)
    (hw : m.width < 2 ^ 32) (hh : m.height < 2 ^ 32)
    (hok : applyMetaDataCheck m = .ok ()) :
    fromStepIHDR d buf 0 = .ok ({ d with meta := m }, 16) := by
  unfold fromStepIHDR
  rw [hscan]
  dsimp only []
  have h84 : (12 : Nat) - 4 = 8 := by norm_num
  rw [h84, hdrop, parseIHDR_roundtrip m R hw hh, hok]

lemma fromStepPLTE_some (d : RnPngState) (buf R : List Nat) (p : PLTEState) (off : Nat)
    (hscan : indexOfSequence buf seqPLTE 16 = some (off + 4))
    (hdrop : buf.drop off = plteBuffer p ++ R)
    (h3 : ∀ c ∈ p.palette, c.length = 3)
    (hsz : p.palette.flatten.length < 2 ^ 32) :
    fromStepPLTE d buf 16
      = ({ d with plte := some { mkPLTE (computeMaxNumberOfColors d.meta.depth) with
            palette := p.palette } }, off + 4 + 4) := by
  unfold fromStepPLTE
  rw [hscan]
  dsimp only []
  rw [Nat.add_sub_cancel, hdrop,
    PLTE_load_roundtrip (mkPLTE (computeMaxNumberOfColors d.meta.depth)) p R h3 hsz]

lemma fromStepPLTE_none (d : RnPngState) (buf : List Nat) (s : Nat)
    (hscan : indexOfSequence buf seqPLTE s = none) :
    fromStepPLTE d buf s = (d, s) := by
  unfold fromStepPLTE
  rw [hscan]

lemma fromStepTRNS_some (d : RnPngState) (buf : List Nat) (s off : Nat)
    (hscan : indexOfSequence buf seqtRNS s = some (off + 4)) :
    fromStepTRNS d buf s
      = ({ d with trns := some (TRNS_load (mkTRNS d.meta.colorType) (buf.drop off)) },
         off + 4 + 4) := by
  unfold fromStepTRNS
  rw [hscan]
  dsimp only []
  rw [Nat.add_sub_cancel]

lemma fromStepTRNS_none (d : RnPngState) (buf : List Nat) (s : Nat)
    (hscan : indexOfSequence buf seqtRNS s = none) :
    fromStepTRNS d buf s = (d, s) := by
  unfold fromStepTRNS
  rw [hscan]

lemma fromStepBKGD_some (d : RnPngState) (buf : List Nat) (s off : Nat)
    (hscan : indexOfSequence buf seqbKGD s = some (off + 4)) :
    ∃ b' : BKGDState,
      fromStepBKGD d buf s = .ok ({ d with bkgd := some b' }, off + 4 + 4) := by
  unfold fromStepBKGD
  rw [hscan]
  dsimp only []
  rw [Nat.add_sub_cancel]
  obtain ⟨b', hb'⟩ := bKGD_load_v2_isOk d.meta.colorType (buf.drop off)
  rw [hb']
  exact ⟨b', rfl⟩

lemma fromStepBKGD_none (d : RnPngState) (buf : List Nat) (s : Nat)
    (hscan : indexOfSequence buf seqbKGD s = none) :
    fromStepBKGD d buf s = .ok (d, s) := by
  unfold fromStepBKGD
  rw [hscan]

lemma fromStepIDAT_eq (d : RnPngState) (inflateFn : List Nat → List Nat)
    (buf : List Nat) (s off : Nat)
    (hscan : indexOfSequence buf seqIDAT s = some (off + 4)) :
    fromStepIDAT d inflateFn buf s
      = ({ d with idat := (d.idat.applyLayoutInformation d.meta).load inflateFn (buf.drop off) },
         off + 4 + 4) := by
  unfold fromStepIDAT
  rw [hscan]
  dsimp only []
  rw [Nat.add_sub_cancel]

lemma getBuffer_eq (d : RnPngState) (deflateFn : List Nat → List Nat) :
    d.getBuffer deflateFn = pngSignature ++ (ihdrBuffer d.meta
      ++ ((match d.plte with | some p => plteBuffer p | none => [])
      ++ ((match d.trns with | some t => trnsBuffer t | none => [])
      ++ ((match d.bkgd with | some b => bkgdBuffer b | none => [])
      ++ (idatBuffer d.idat deflateFn ++ iendBuffer))))) := by
  obtain ⟨m, plte, trns, bkgd, idat⟩ := d
  cases plte <;> cases trns <;> cases bkgd <;> (unfold RnPngState.getBuffer; simp only [List.append_assoc])

lemma optMatch_plte_length (d : RnPngState) :
    (match d.plte with | some p => plteBuffer p | none => ([] : List Nat)).length
      = optLen plteBuffer d.plte := by
  cases d.plte <;> rfl

lemma optMatch_trns_length (d : RnPngState) :
    (match d.trns with | some t => trnsBuffer t | none => ([] : List Nat)).length
      = optLen trnsBuffer d.trns := by
  cases d.trns <;> rfl

lemma optMatch_bkgd_length (d : RnPngState) :
    (match d.bkgd with | some b => bkgdBuffer b | none => ([] : List Nat)).length
      = optLen bkgdBuffer d.bkgd := by
  cases d.bkgd <;> rfl

lemma getBuffer_drop8 (d : RnPngState) (deflateFn : List Nat → List Nat) :
    (d.getBuffer deflateFn).drop 8 = ihdrBuffer d.meta
      ++ ((match d.plte with | some p => plteBuffer p | none => [])
      ++ ((match d.trns with | some t => trnsBuffer t | none => [])
      ++ ((match d.bkgd with | some b => bkgdBuffer b | none => [])
      ++ (idatBuffer d.idat deflateFn ++ iendBuffer)))) := by
  rw [getBuffer_eq]
  exact drop_at_prefix _ _ _ (by rfl)

lemma getBuffer_dropPlte (d : RnPngState) (deflateFn : List Nat → List Nat) :
    (d.getBuffer deflateFn).drop (plteStartOff d)
      = (match d.plte with | some p => plteBuffer p | none => [])
      ++ ((match d.trns with | some t => trnsBuffer t | none => [])
      ++ ((match d.bkgd with | some b => bkgdBuffer b | none => [])
      ++ (idatBuffer d.idat deflateFn ++ iendBuffer))) := by
  rw [getBuffer_eq, ← List.append_assoc]
  apply drop_at_prefix
  simp only [List.length_append, plteStartOff]
  have : pngSignature.length = 8 := rfl
  omega

lemma getBuffer_dropTrns (d : RnPngState) (deflateFn : List Nat → List Nat) :
    (d.getBuffer deflateFn).drop (trnsStartOff d)
      = (match d.trns with | some t => trnsBuffer t | none => [])
      ++ ((match d.bkgd with | some b => bkgdBuffer b | none => [])
      ++ (idatBuffer d.idat deflateFn ++ iendBuffer)) := by
  rw [getBuffer_eq, ← List.append_assoc, ← List.append_assoc]
  apply drop_at_prefix
  simp only [List.length_append, trnsStartOff, plteStartOff]
  have h1 : pngSignature.length = 8 := rfl
  have h2 := optMatch_plte_length d
  omega

lemma getBuffer_dropBkgd (d : RnPngState) (deflateFn : List Nat → List Nat) :
    (d.getBuffer deflateFn).drop (bkgdStartOff d)
      = (match d.bkgd with | some b => bkgdBuffer b | none => [])
      ++ (idatBuffer d.idat deflateFn ++ iendBuffer) := by
  rw [getBuffer_eq, ← List.append_assoc, ← List.append_assoc, ← List.append_assoc]
  apply drop_at_prefix
  simp only [List.length_append, bkgdStartOff, trnsStartOff, plteStartOff]
  have h1 : pngSignature.length = 8 := rfl
  have h2 := optMatch_plte_length d
  have h3 := optMatch_trns_length d
  omega

lemma getBuffer_dropIdat (d : RnPngState) (deflateFn : List Nat → List Nat) :
    (d.getBuffer deflateFn).drop (idatStartOff d)
      = idatBuffer d.idat deflateFn ++ iendBuffer := by
  rw [getBuffer_eq, ← List.append_assoc, ← List.append_assoc, ← List.append_assoc,
    ← List.append_assoc]
  apply drop_at_prefix
  simp only [List.length_append, idatStartOff, bkgdStartOff, trnsStartOff, plteStartOff]
  have h1 : pngSignature.length = 8 := rfl
  have h2 := optMatch_plte_length d
  have h3 := optMatch_trns_length d
  have h4 := optMatch_bkgd_length d
  omega

/-- C1 (amended): save-then-load round-trips metadata and every in-bounds
pixel, under strengthened codec assumptions — the injected `inflate` must
recover the deflated stream even with arbitrary bytes appended (because
`IDAT.load` hands it everything from the data offset to the end of the PNG
buffer), the deflated stream must fit the predicted payload size, the
magic-sequence scan must locate every chunk at its written offset, and the
document must be well formed with byte-aligned scanlines. -/
theorem claim_C1_amended (d : RnPngState) (inflateFn deflateFn : List Nat → List Nat)
    (hwf : C1Wf d)
    (hcodec : ∀ b t, inflateFn (deflateFn b ++ t) = b)
    (hfit : (deflateFn d.idat.filteredData).length ≤ d.idat.calculatePayloadSize)
    (hscan : scanOk d (d.getBuffer deflateFn)) :
    ∃ d' : RnPngState,
      RnPngState.fromBuffer freshRnPng inflateFn (d.getBuffer deflateFn) = .ok d'
        ∧ d'.meta = d.meta
        ∧ ∀ x y : Nat, x < d.meta.width → y < d.meta.height →
            d'.getPixelAt (.xy x y) = d.getPixelAt (.xy x y) := by
  unfold C1Wf at hwf
  unfold scanOk at hscan
  obtain ⟨hok, hw32, hh32, hiw, hih, hid, hic, hlen, hbytes, halign, hplwf, htrwf⟩ := hwf
  obtain ⟨hsIHDR, hsPLTE, hsTRNS, hsBKGD, hsIDAT, hsig, hidat0, hiend⟩ := hscan
  have hihdr0 : (indexOfSequence (d.getBuffer deflateFn) seqIHDR 0).isSome = true := by
    rw [hsIHDR]
    rfl
  have hguard : ((indexOfSequence (d.getBuffer deflateFn) pngSignature 0).isSome
      && (indexOfSequence (d.getBuffer deflateFn) seqIHDR 0).isSome
      && (indexOfSequence (d.getBuffer deflateFn) seqIDAT 0).isSome
      && (indexOfSequence (d.getBuffer deflateFn) seqIEND 0).isSome) = true := by
    rw [hsig, hihdr0, hidat0, hiend]
    rfl
  have h2 : fromStepIHDR { freshRnPng with plte := none } (d.getBuffer deflateFn) 0
      = .ok (loadBase d.meta, 16) :=
    fromStepIHDR_eq _ _ _ _ hsIHDR (getBuffer_drop8 d deflateFn) hw32 hh32 hok
  have h3 : fromStepPLTE (loadBase d.meta) (d.getBuffer deflateFn) 16
      = (loadPhase2 d, scanS3 d) := by
    rcases hp : d.plte with - | p
    · rw [hp] at hsPLTE
      simp only [] at hsPLTE
      rw [fromStepPLTE_none _ _ _ hsPLTE]
      simp only [scanS3, hp, loadPhase2, loadedPlte, Option.map]
      rfl
    · rw [hp] at hsPLTE hplwf
      simp only [] at hsPLTE hplwf
      have hdropP := getBuffer_dropPlte d deflateFn
      rw [hp] at hdropP
      simp only [] at hdropP
      rw [fromStepPLTE_some _ _ _ p (plteStartOff d) hsPLTE hdropP hplwf.1 hplwf.2]
      simp only [scanS3, hp, loadPhase2, loadedPlte, Option.map]
      rfl
  have h4 : fromStepTRNS (loadPhase2 d) (d.getBuffer deflateFn) (scanS3 d)
      = (loadPhase3 d deflateFn, scanS4 d) := by
    rcases ht : d.trns with - | t
    · rw [ht] at hsTRNS
      simp only [] at hsTRNS
      rw [fromStepTRNS_none _ _ _ hsTRNS]
      simp only [scanS4, ht, loadPhase3, loadedTrns, Option.map]
      rfl
    · rw [ht] at hsTRNS
      simp only [] at hsTRNS
      rw [fromStepTRNS_some _ _ _ (trnsStartOff d) hsTRNS]
      simp only [scanS4, ht, loadPhase3, loadedTrns, Option.map]
      rfl
  have h5 : ∃ bN : Option BKGDState,
      fromStepBKGD (loadPhase3 d deflateFn) (d.getBuffer deflateFn) (scanS4 d)
        = .ok (loadPhase4 d deflateFn bN, scanS5 d) := by
    rcases hbk : d.bkgd with - | b
    · rw [hbk] at hsBKGD
      simp only [] at hsBKGD
      refine ⟨none, ?_⟩
      rw [fromStepBKGD_none _ _ _ hsBKGD]
      simp only [scanS5, hbk, loadPhase4]
      rfl
    · rw [hbk] at hsBKGD
      simp only [] at hsBKGD
      obtain ⟨b', hb'⟩ := fromStepBKGD_some (loadPhase3 d deflateFn)
        (d.getBuffer deflateFn) (scanS4 d) (bkgdStartOff d) hsBKGD
      refine ⟨some b', ?_⟩
      rw [hb']
      simp only [scanS5, hbk, loadPhase4]
  obtain ⟨bN, h5⟩ := h5
  have h6 : fromStepIDAT (loadPhase4 d deflateFn bN) inflateFn
        (d.getBuffer deflateFn) (scanS5 d)
      = (loadFinal d inflateFn deflateFn bN, idatStartOff d + 8) :=
    fromStepIDAT_eq _ inflateFn _ _ (idatStartOff d) hsIDAT
  have hrun : RnPngState.fromBuffer freshRnPng inflateFn (d.getBuffer deflateFn)
      = .ok (loadFinal d inflateFn deflateFn bN) := by
    unfold RnPngState.fromBuffer
    rw [if_pos hguard]
    dsimp only []
    rw [h2]
    dsimp only []
    rw [h3]
    dsimp only []
    rw [h4]
    dsimp only []
    rw [h5]
    dsimp only []
    rw [h6]
  refine ⟨_, hrun, rfl, ?_⟩
  intro x y hx hy
  have hdropI := getBuffer_dropIdat d deflateFn
  have hpd : (loadedIdat d inflateFn deflateFn).pixelData
      = d.idat.pixelData.take
          (d.meta.height * (d.meta.width * determineFullPixelSize d.meta.colorType)) := by
    unfold loadedIdat
    rw [hdropI]
    have hrt := IDAT_load_roundtrip d.idat (freshRnPng.idat.applyLayoutInformation d.meta)
      inflateFn deflateFn iendBuffer hiw.symm hih.symm hid.symm hic.symm
      (by rw [hid]; exact metaCheck_depth d.meta hok)
      (by rw [hid]; exact hbytes)
      (by rw [hid, hiw, hic]; exact halign)
      (by rw [hiw, hic, hih]; exact le_of_eq hlen.symm)
      hcodec hfit
    rw [hrt, hiw, hih, hic]
  have hpal : Option.map PLTEState.palette (loadedPlte d)
      = Option.map PLTEState.palette d.plte := by
    rcases hp : d.plte with - | p <;> simp [loadedPlte, hp]
  have halph : isIndexed d.meta.colorType = true →
      Option.map TRNSState.alphas (loadedTrns d deflateFn)
        = Option.map TRNSState.alphas d.trns := by
    intro hi
    rcases ht : d.trns with - | t
    · simp [loadedTrns, ht]
    · rw [ht] at htrwf
      simp only [] at htrwf
      have hdropT := getBuffer_dropTrns d deflateFn
      rw [ht] at hdropT
      simp only [] at hdropT
      simp only [loadedTrns, ht, Option.map]
      rw [hdropT, TRNS_load_indexed_roundtrip d.meta.colorType hi t htrwf.1 _ htrwf.2]
  exact getPixelAt_take_congr d.meta d.plte (loadedPlte d) d.trns (loadedTrns d deflateFn)
    d.bkgd bN d.idat (loadedIdat d inflateFn deflateFn) x y hx hy rfl hic hpd hpal halph

lemma c1am_codec : ∀ b t : List Nat, c1amInflate (c1amDeflate b ++ t) = b := by
  intro b t
  simp [c1amDeflate, c1amInflate]

set_option maxRecDepth 100000 in
/-- Witness for the amended C1 round-trip: the concrete 1-by-1 grayscale
document saved and reloaded through the tolerant length-prefix codec. -/
theorem claim_C1_amended_witness :
    ∃ d' : RnPngState,
      RnPngState.fromBuffer freshRnPng c1amInflate (c1Doc.getBuffer c1amDeflate) = .ok d'
        ∧ d'.meta = c1Doc.meta
        ∧ ∀ x y : Nat, x < c1Doc.meta.width → y < c1Doc.meta.height →
            d'.getPixelAt (.xy x y) = c1Doc.getPixelAt (.xy x y) :=
  claim_C1_amended c1Doc c1amInflate c1amDeflate
    ⟨rfl, by decide, by decide, rfl, rfl, rfl, rfl, by decide, by decide, by decide,
      trivial, trivial⟩
    c1am_codec
    (by decide)
    (by unfold scanOk; decide)
